import Mathlib

/-!
Verification development for the NoticeForge document pipeline
(`noticeforge_best.py`): a shallow embedding of the core text heuristics,
summarizer, OCR-quality scorer, content-addressed cache run loop and the
export batcher, together with theorems settling the specification claims.

Python strings are modelled as Lean `String`s (sequences of Unicode code
points, matching Python's code-point semantics for `len`, slicing and
iteration).  Regular expressions from the source are translated into
explicit backtracking matchers over `List Char` with Python `re`
semantics (leftmost match, ordered alternation, greedy quantifiers).
Newlines are modelled as `'\n'` only; the claims and witnesses never use
other line terminators.
-/

namespace NoticeForge

/-! ## Character classes -/

/-- Hiragana range `ぁ-ん` (U+3041–U+3093), as in the source regexes. -/
def isHira (c : Char) : Bool := 0x3041 ≤ c.toNat && c.toNat ≤ 0x3093

/-- Katakana range `ァ-ン` (U+30A1–U+30F3), as in the source regexes. -/
def isKata (c : Char) : Bool := 0x30A1 ≤ c.toNat && c.toNat ≤ 0x30F3

/-- Kanji range `一-龥` (U+4E00–U+9FA5), as in the source regexes. -/
def isKanji (c : Char) : Bool := 0x4E00 ≤ c.toNat && c.toNat ≤ 0x9FA5

/-- The "Japanese character" class `[ぁ-んァ-ン一-龥]` used throughout the source. -/
def isJp (c : Char) : Bool := isHira c || isKata c || isKanji c

/-- The wide range `[ぁ-鿿]` used by `_is_garbage_line`'s short-line rule. -/
def inWideJpRange (c : Char) : Bool := 0x3041 ≤ c.toNat && c.toNat ≤ 0x9FFF

/-- ASCII digit `\d` (Python `\d` also matches other Unicode digits; the
source's inputs and all witnesses only use ASCII digits). -/
def isDigitCh (c : Char) : Bool := '0' ≤ c && c ≤ '9'

/-- Full-width digits `０-９` (U+FF10–U+FF19). -/
def isFwDigit (c : Char) : Bool := 0xFF10 ≤ c.toNat && c.toNat ≤ 0xFF19

/-- Full-width digits `１-９` (U+FF11–U+FF19). -/
def isFwDigit19 (c : Char) : Bool := 0xFF11 ≤ c.toNat && c.toNat ≤ 0xFF19

/-- Upper-case Latin letter `[A-Z]`. -/
def isUpperLatin (c : Char) : Bool := 'A' ≤ c && c ≤ 'Z'

/-- Latin letter `[A-Za-z]`. -/
def isLatin (c : Char) : Bool := ('A' ≤ c && c ≤ 'Z') || ('a' ≤ c && c ≤ 'z')

/-- Python whitespace (`str.strip` / regex `\s`): space, tab, newline,
carriage return, vertical tab, form feed and the ideographic space U+3000. -/
def isPyWs (c : Char) : Bool :=
  c = ' ' || c = '\t' || c = '\n' || c = '\x0d' || c = '\x0b' || c = '\x0c' ||
  c.toNat = 0x3000

/-- The class `[\s　]` (whitespace or ideographic space) — same set as `isPyWs`
because U+3000 is already Python whitespace. -/
def isWsOrFw (c : Char) : Bool := isPyWs c

/-! ## Python-style string helpers -/

/-- `str.strip()` on the underlying character list. -/
def stripChars (l : List Char) : List Char :=
  ((l.dropWhile isPyWs).reverse.dropWhile isPyWs).reverse

/-- `str.strip()`. -/
def pyStrip (s : String) : String := ⟨stripChars s.data⟩

/-- `str.rstrip()`. -/
def pyRstrip (s : String) : String := ⟨(s.data.reverse.dropWhile isPyWs).reverse⟩

/-- Substring containment, Python's `needle in hay`. -/
def containsSub (hay needle : String) : Bool :=
  (List.range (hay.data.length + 1)).any fun i => needle.data.isPrefixOf (hay.data.drop i)

/-- Recursion core of `splitlinesChars`; the fuel decreases by one per
produced line while at least one character is consumed, so `length + 1` fuel
always suffices (structural recursion keeps the definition kernel-computable). -/
def splitlinesGo : Nat → List Char → List (List Char)
  | 0, _ => []
  | _, [] => []
  | fuel + 1, c :: cs =>
    let line := (c :: cs).takeWhile fun x => x ≠ '\n'
    match (c :: cs).drop line.length with
    | [] => [line]
    | _ :: tail => line :: splitlinesGo fuel tail

/-- `str.splitlines()` on character lists, with `'\n'` as the only terminator:
no entry is produced for a trailing newline, and the empty string yields no
lines. -/
def splitlinesChars (l : List Char) : List (List Char) :=
  splitlinesGo (l.length + 1) l

/-- `str.splitlines()`. -/
def splitlines (s : String) : List String :=
  (splitlinesChars s.data).map String.mk

/-- Join lines with `'\n'` (Python `"\n".join`). -/
def joinNL (ls : List String) : String := String.intercalate "\n" ls

/-- Python slice `s[:n]` for a (possibly negative) `n`. -/
def pySliceTo (s : String) (n : Int) : String :=
  if 0 ≤ n then ⟨s.data.take n.toNat⟩
  else ⟨s.data.take (((s.data.length : Int) + n).toNat)⟩

/-- `s[:n] + ("…" if len(s) > n else "")` — the truncation idiom closing every
summarizer path, with an `Int` budget as used by the inner calls. -/
def truncZ (s : String) (n : Int) : String :=
  pySliceTo s n ++ (if n < (s.data.length : Int) then "…" else "")

/-- Same truncation idiom with a natural-number budget. -/
def truncN (s : String) (n : Nat) : String :=
  ⟨s.data.take n⟩ ++ (if n < s.data.length then "…" else "")

/-- ASCII `str.lower()` (the source lowers only ASCII extensions like ".PDF"). -/
def asciiLower (s : String) : String := ⟨s.data.map Char.toLower⟩

theorem length_pySliceTo_le (s : String) (n : Nat) :
    (pySliceTo s (n : Int)).length ≤ n := by
  rw [pySliceTo, if_pos (by omega : (0 : Int) ≤ (n : Int))]
  show (s.data.take ((n : Int)).toNat).length ≤ n
  rw [List.length_take]
  omega

theorem length_truncZ_le (s : String) (n : Nat) :
    (truncZ s (n : Int)).length ≤ n + 1 := by
  rw [truncZ, String.length_append]
  have h2 : (if (n : Int) < (s.data.length : Int) then "…" else "").length ≤ 1 := by
    split
    · decide
    · decide
  have h1 := length_pySliceTo_le s n
  omega

theorem length_truncN_le (s : String) (n : Nat) :
    (truncN s n).length ≤ n + 1 := by
  rw [truncN, String.length_append]
  have h2 : (if n < s.data.length then "…" else "").length ≤ 1 := by
    split
    · decide
    · decide
  have h1 : (String.mk (s.data.take n)).length ≤ n := by
    show (s.data.take n).length ≤ n
    rw [List.length_take]
    omega
  omega

/-! ## Backtracking regex matchers

A pattern is a CPS matcher: it consumes a prefix of the input and passes the
remainder to the continuation, backtracking on failure.  Ordered alternation
(`palt`), greedy star (`pstar`) and greedy bounded repetition (`prep`) mirror
Python `re` semantics. -/

/-- Continuation-passing matcher over character lists. -/
def Pat : Type := (List Char → Option (List Char)) → List Char → Option (List Char)

/-- The empty pattern. -/
def pnil : Pat := fun k s => k s

/-- Literal string. -/
def plit (t : String) : Pat := fun k s =>
  if t.data.isPrefixOf s then k (s.drop t.data.length) else none

/-- Single character from a class. -/
def pcls (c : Char → Bool) : Pat := fun k s =>
  match s with
  | [] => none
  | a :: r => if c a then k r else none

/-- Sequencing. -/
def pseq (a b : Pat) : Pat := fun k s => a (b k) s

/-- Sequencing a list of patterns. -/
def pseqs (ps : List Pat) : Pat := ps.foldr pseq pnil

/-- Ordered alternation (left branch preferred, as in Python `re`). -/
def palt (a b : Pat) : Pat := fun k s => (a k s).orElse (fun _ => b k s)

/-- Ordered alternation over a list. -/
def palts (ps : List Pat) : Pat := fun k s =>
  ps.foldr (fun p acc => (p k s).orElse (fun _ => acc)) none

/-- Greedy Kleene star over a character class, with backtracking. -/
def pstar (c : Char → Bool) : Pat := fun k s => go k s
where
  go (k : List Char → Option (List Char)) : List Char → Option (List Char)
  | [] => k []
  | a :: r =>
    if c a then (go k r).orElse (fun _ => k (a :: r)) else k (a :: r)

/-- Greedy `+` over a character class. -/
def pplus (c : Char → Bool) : Pat := pseq (pcls c) (pstar c)

/-- Greedy option `?` of a pattern. -/
def popt (p : Pat) : Pat := fun k s => (p k s).orElse (fun _ => k s)

/-- Greedy bounded repetition `{0,m}` over a character class. -/
def prep (c : Char → Bool) (m : Nat) : Pat := fun k s => go m k s
where
  go : Nat → (List Char → Option (List Char)) → List Char → Option (List Char)
  | 0, k, s => k s
  | _ + 1, k, [] => k []
  | m + 1, k, a :: r =>
    if c a then (go m k r).orElse (fun _ => k (a :: r)) else k (a :: r)

/-- Repetition `{n,m}` over a character class: `n` required then up to `m - n` more. -/
def prange (c : Char → Bool) (n m : Nat) : Pat :=
  pseq (pseqs (List.replicate n (pcls c))) (prep c (m - n))

/-- End-of-input anchor `$`. -/
def pend : Pat := fun k s => if s = [] then k s else none

/-- Run a pattern anchored at the start; returns the remainder after the match. -/
def runPat (p : Pat) (s : List Char) : Option (List Char) := p some s

/-- `re.match(p, s)` as a Bool (anchored at the start). -/
def reMatchB (p : Pat) (s : String) : Bool := (runPat p s.data).isSome

/-- Leftmost search: the first index at which the pattern matches, with the
length of the (preferred) match there. -/
def searchPos (p : Pat) (s : List Char) : Option (Nat × Nat) := go 0 s
where
  go (i : Nat) : List Char → Option (Nat × Nat)
  | [] =>
    match runPat p [] with
    | some _ => some (i, 0)
    | none => none
  | a :: r =>
    match runPat p (a :: r) with
    | some rem => some (i, (a :: r).length - rem.length)
    | none => go (i + 1) r

/-- `re.search(p, s)` as a Bool. -/
def reSearchB (p : Pat) (s : String) : Bool := (searchPos p s.data).isSome

/-- `re.search(p, s).group(0)`: the matched substring of the leftmost match. -/
def reSearchG0 (p : Pat) (s : String) : Option String :=
  (searchPos p s.data).map fun pr => ⟨(s.data.drop pr.1).take pr.2⟩

/-- Count of `re.findall` matches: scan left to right, skipping one character
when no match starts at the current position, else continuing after the match
(all source patterns match at least one character). -/
def countMatchesGo (p : Pat) : Nat → List Char → Nat
  | 0, _ => 0
  | _, [] => 0
  | fuel + 1, a :: r =>
    match runPat p (a :: r) with
    | some rem =>
      1 + countMatchesGo p fuel (if rem.length ≤ r.length then rem else r)
    | none => countMatchesGo p fuel r

/-- Entry point of the findall counter; one fuel unit covers at least one
consumed character, so `length + 1` fuel always suffices. -/
def countMatches (p : Pat) (s : List Char) : Nat :=
  countMatchesGo p (s.length + 1) s

end NoticeForge

namespace NoticeForge

/-! ## Patterns from the source (`noticeforge_best.py`) -/

/-- Character-set membership for a character class listed as a string. -/
def inStr (set : String) (c : Char) : Bool := set.data.contains c

/-- Characters that are not a newline (regex `.` without DOTALL). -/
def notNL (c : Char) : Bool := c ≠ '\n'

/-- `_TITLE_ENDINGS` — the six notice-title suffix patterns. -/
def titleEndingPats : List Pat :=
  [ pseqs [plit "について", popt (pcls (inStr "（(")), plit "通知",
           popt (pcls (inStr "）)")), pstar isPyWs, pend],
    pseqs [plit "について", pstar isPyWs, pend],
    pseqs [plit "に関する件", pstar isPyWs, pend],
    pseqs [plit "に関して", pstar isPyWs, pend],
    pseqs [plit "に係る件", pstar isPyWs, pend],
    pseqs [plit "の件", pstar isPyWs, pend] ]

/-- `any(re.search(pat, s) for pat in _TITLE_ENDINGS)`. -/
def titleEndingAny (s : String) : Bool := titleEndingPats.any fun p => reSearchB p s

/-- `_HEADER_PATTERNS` — `any(re.search(p, s) ...)` over the source's tuple of
header regexes (document numbers, dates, addressees, issuers, boilerplate). -/
def headerAny (s : String) : Bool :=
  reMatchB (pseqs [plit "第", pplus isDigitCh, plit "号"]) s ||
  reMatchB (pseqs [pcls (inStr "消総危"), plit "防", popt (pcls (inStr "危予施立")),
                   plit "第"]) s ||
  reSearchB (pseqs [plit "消防", popt (pcls (inStr "危予施立")), plit "第",
                    pstar isPyWs, pplus isDigitCh, pstar isPyWs, plit "号"]) s ||
  reMatchB (pseqs [prange isDigitCh 4 4, plit "年"]) s ||
  reMatchB (palts [plit "令和", plit "平成", plit "昭和"]) s ||
  [ "各都道府県", "各消防本部", "各市町村", "各指定都市", "各政令市", "各中核市",
    "消防本部長", "消防署長殿", "知事殿" ].any (containsSub s) ||
  reSearchB (pseqs [plit "殿", pstar isPyWs, pend]) s ||
  reSearchB (pseqs [plit "御中", pstar isPyWs, pend]) s ||
  reMatchB (palts [plit "消防庁", plit "総務省", plit "危険物保安室", plit "予防課"]) s ||
  reMatchB (palts [plit "東京消防庁", plit "各消防本部長", plit "各消防署長"]) s ||
  containsSub s "官印省略" ||
  containsSub s "防災主管課" ||
  reMatchB (pseqs [plit "消防", pcls (inStr "本局"), plit "部"]) s ||
  containsSub s "都市消防本部" ||
  reMatchB (pseqs [plit "事務連絡", pstar isPyWs, pend]) s ||
  reMatchB (pseqs [plit "写", pstar isPyWs, pend]) s ||
  reMatchB (pseqs [plit "別記", pstar isPyWs, pend]) s

/-- Separator class `[\s　．.\-\)）]` of `_NUMBERED_ITEM_RE`. -/
def numSepCls (c : Char) : Bool := isPyWs c || inStr "．.-)）" c

/-- Circled digits `①-⑳` (U+2460–U+2473). -/
def isCircled (c : Char) : Bool := 0x2460 ≤ c.toNat && c.toNat ≤ 0x2473

/-- `_NUMBERED_ITEM_RE` — lines starting with a list/enumeration marker. -/
def numberedItemPat : Pat :=
  pseq (pstar isPyWs)
    (palts
      [ pseqs [pcls isFwDigit19, pstar isFwDigit, pcls numSepCls],
        pseqs [pplus isDigitCh, pcls numSepCls],
        pcls isCircled,
        pseqs [plit "（", pcls isFwDigit19, plit "）"],
        pseqs [plit "(", pcls (fun c => '1' ≤ c && c ≤ '9'), plit ")"] ])

/-- `_NUMBERED_ITEM_RE.match(s)`. -/
def numberedItemMatch (s : String) : Bool := reMatchB numberedItemPat s

/-- `_MID_SENTENCE_RE.match(s)` — line starts with a particle/punctuation. -/
def midSentenceMatch (s : String) : Bool :=
  match s.data with
  | [] => false
  | c :: _ => inStr "てしがのにをはもとなかよりでもし、。・ー…「」" c

/-- `_GARBAGE_LINE_RE.match(s)` — symbol-only / rule-only lines. -/
def garbageLineReMatch (s : String) : Bool :=
  reMatchB
    (pseqs
      [ pstar isPyWs,
        palts
          [ prange (inStr "■□◆◇▲△▼▽●○◎★☆※＊〒") 1 3,
            pseq (prange (inStr "-─━=＝") 4 4) (pstar (inStr "-─━=＝")),
            pseq (prange (inStr "・-") 3 3) (pstar (inStr "・-")) ],
        pstar isPyWs, pend]) s

/-- Sum of the lengths of the maximal runs of ≥ 4 upper-case Latin letters
(`sum(len(r) for r in re.findall(r"[A-Z]{4,}", s))`). -/
def upperRunSum (l : List Char) : Nat := go 0 l
where
  contrib (cur : Nat) : Nat := if 4 ≤ cur then cur else 0
  go (cur : Nat) : List Char → Nat
  | [] => contrib cur
  | c :: r => if isUpperLatin c then go (cur + 1) r else contrib cur + go 0 r

/-- `_is_garbage_line` — OCR garbage / isolated symbols / script-free lines. -/
def isGarbageLine (s : String) : Bool :=
  if s.data = [] then false
  else if s.length ≤ 2 && s.data.all (fun c => !inWideJpRange c) then true
  else if garbageLineReMatch s then true
  else
    let noSpace := s.data.filter fun c => !(c = ' ' || c = '　' || c = '\t')
    if 4 ≤ noSpace.length then
      let jp := (noSpace.filter isJp).length
      let total := noSpace.length
      if jp = 0 && 6 ≤ total then true
      else if 10 ≤ total && 0 < jp && jp * 10 < total then true
      else
        let rs := upperRunSum noSpace
        if 0 < rs && total < 2 * rs then true else false
    else false

/-- `_FOOTER_LINE_RE.search(s)` — contact/phone/page-number footer lines.  The
regex's last alternative is anchored with `^`, modelled by the separate
anchored disjunct. -/
def footerSearch (s : String) : Bool :=
  reSearchB
    (palts
      [ pseqs [plit "担当", popt (plit "係"), pcls (inStr ":：")],
        pseqs [plit "問", popt (pcls (fun c => c = 'い')), plit "合わせ",
               popt (plit "先"), pcls (inStr ":：")],
        pseqs [plit "電話", pcls (inStr ":：")],
        pseqs [plit "FAX", pcls (fun c => inStr ":：" c || isPyWs c)],
        plit "℡",
        pseqs [plit "TEL", pstar (fun c => inStr ":：" c || isPyWs c), pcls isDigitCh],
        pseqs [plit "Tel", pstar (fun c => inStr ":：" c || isPyWs c), pcls isDigitCh],
        pseqs [plit "tel", pstar (fun c => inStr ":：" c || isPyWs c), pcls isDigitCh],
        pseqs [prange isDigitCh 2 5, pcls (inStr "-－"), prange isDigitCh 3 4,
               pcls (inStr "-－"), prange isDigitCh 4 4],
        pseqs [plit "〒", prange isDigitCh 3 3, popt (pcls (inStr "-－")),
               prange isDigitCh 4 4],
        plit "問合せ", plit "照会先", plit "内線", plit "直通" ]) s ||
  reMatchB (pseqs [pstar isPyWs, pcls (inStr "－-"), pstar isPyWs, pplus isDigitCh,
                   pstar isPyWs, pcls (inStr "－-"), pstar isPyWs, pend]) s

/-- `_is_header_or_footer`. -/
def isHeaderOrFooter (s : String) : Bool := headerAny s || footerSearch s

/-- `_TERMINATOR_RE.match(s)` — "以上"-style document terminator lines. -/
def terminatorMatch (s : String) : Bool :=
  reMatchB
    (pseqs
      [ pstar isPyWs,
        palts [plit "以上", plit "以下余白", plit "（了）",
               pseqs [plit "－", pstar isPyWs, plit "了", pstar isPyWs, plit "－"],
               plit "【以上】", plit "〔以上〕"],
        pstar isPyWs, pend]) s

/-- `_INTENT_SENTENCE_END_RE.search(s)` — "…通知する。"-style intent endings. -/
def intentEndSearch (s : String) : Bool :=
  reSearchB
    (pseqs
      [ palts [plit "通知する", plit "通知します", plit "伝達する", plit "送付する",
               plit "連絡する", plit "回答する", plit "依頼する", plit "お知らせする",
               plit "お伝えする", plit "送付します", plit "依頼します"],
        popt (pcls (fun c => c = '。')), pstar isPyWs, pend]) s

/-- Era-date pattern `(令和|平成|昭和)\s*[0-9元]+\s*年\s*\d+\s*月\s*\d+\s*日`. -/
def eraDatePat : Pat :=
  pseqs [palts [plit "令和", plit "平成", plit "昭和"], pstar isPyWs,
         pplus (fun c => isDigitCh c || c = '元'), pstar isPyWs, plit "年",
         pstar isPyWs, pplus isDigitCh, pstar isPyWs, plit "月",
         pstar isPyWs, pplus isDigitCh, pstar isPyWs, plit "日"]

/-- `_ENFORCEMENT_DATE_RE` — effect-verb near an era date. -/
def enforcementDatePat : Pat :=
  palt
    (pseqs [palts [plit "施行", plit "適用", plit "公布", plit "発効", plit "実施",
                   plit "以降", plit "より"],
            prep notNL 6, eraDatePat])
    (pseqs [eraDatePat, prep notNL 10,
            palts [plit "施行", plit "適用", plit "公布", plit "発効", plit "以降",
                   plit "から"]])

/-- `_extract_enforcement_date` — the era-date inside the first
enforcement-phrase match, else the empty string. -/
def extractEnforcementDate (text : String) : String :=
  match reSearchG0 enforcementDatePat text with
  | none => ""
  | some g0 => (reSearchG0 eraDatePat g0).getD ""

/-- `_BULLET_RE.match(s)` — list-item markers preserved by the line joiner. -/
def bulletMatch (s : String) : Bool :=
  reMatchB
    (pseq (pstar isPyWs)
      (palts
        [ pcls isCircled,
          pseqs [pcls (fun c => isFwDigit19 c || c = '０'), pstar isFwDigit,
                 pcls (inStr "．.、")],
          pseqs [plit "（", prange (fun c => isFwDigit c || isKata c || isKanji c) 1 3,
                 plit "）"],
          pseqs [plit "(",
                 prange (fun c => ('1' ≤ c && c ≤ '9') || isKata c ||
                                  ('a' ≤ c && c ≤ 'z')) 1 3,
                 plit ")"],
          pseqs [pcls isKata, pcls (fun c => inStr "．.、" c || isPyWs c)],
          pseqs [pcls isLatin, pcls (fun c => inStr "．.、" c || isPyWs c)],
          pseqs [pcls (inStr "・•◆▶▷"), pcls isPyWs] ])) s

/-- `_is_meaningful_title` — at least one Japanese character and a Japanese
ratio of at least 15 %. -/
def isMeaningfulTitle (s : String) : Bool :=
  let jp := (s.data.filter isJp).length
  0 < jp && 3 * s.length ≤ 20 * jp

/-- `_is_similar_to_title` — duplicate-of-title test for summary lines. -/
def isSimilarToTitle (line title : String) : Bool :=
  if title.data = [] || line.length < 6 then false
  else if containsSub title line || containsSub line title then true
  else
    let stripSet := fun c => isPyWs c || inStr "、。・（）()-—―" c
    let cleanLine := String.mk (line.data.filter fun c => !stripSet c)
    let cleanTitle := String.mk (title.data.filter fun c => !stripSet c)
    if cleanTitle.data ≠ [] && cleanLine.data ≠ [] then
      containsSub cleanTitle cleanLine || containsSub cleanLine cleanTitle
    else false

/-- OCR-junk symbol class of `_is_ocr_garbled_title`'s first rule. -/
def garbleSymCls (c : Char) : Bool := isLatin c || inStr "*#$@!?~^&%+=|\\/<>" c

/-- `_is_ocr_garbled_title` — the shared OCR-garble rejection predicate. -/
def isOcrGarbledTitle (s : String) : Bool :=
  if s.data = [] then true
  else if reMatchB (pseqs [prange garbleSymCls 1 2, pcls isJp]) s then true
  else if 10 ≤ s.length &&
          reMatchB (pseqs [pcls isJp, pcls isJp]) s &&
          !(inStr "のはがをにでもとやへ各本全新旧上下前後" (s.data.headD ' ')) &&
          titleEndingAny ⟨s.data.drop 1⟩ then true
  else if 120 < s.length then true
  else if 2 ≤ countMatches (pseq (pcls isUpperLatin) (pcls isJp)) s.data then true
  else false

end NoticeForge

namespace NoticeForge

/-! ## Title guessing (`guess_title` and its helpers) -/

/-- `_is_title_connectable` — whether a preceding line may be joined into a
multi-line title. -/
def isTitleConnectable (lineText : String) : Bool :=
  5 ≤ lineText.length && lineText.length ≤ 120 &&
  !headerAny lineText &&
  !midSentenceMatch lineText &&
  !numberedItemMatch lineText &&
  isMeaningfulTitle lineText &&
  !isOcrGarbledTitle lineText &&
  !titleEndingAny lineText

/-- `_validate_title` — final validation of a title candidate. -/
def validateTitle (candidate : String) : Option String :=
  if candidate.data = [] || 120 < candidate.length then none
  else if isOcrGarbledTitle candidate then none
  else if numberedItemMatch candidate then none
  else if !isMeaningfulTitle candidate then none
  else some candidate

/-- The stripped `i`-th line (`lines[i].strip()`), empty when out of range. -/
def stripAt (lines : List String) (i : Nat) : String := pyStrip (lines.getD i "")

/-- The previous-line joining attempts shared by the first two branches of
`guess_title`'s pattern-1 loop: try `prev2 + prev + s`, then `prev + s`. -/
def connectAt (lines : List String) (i : Nat) (s : String) : Option String :=
  if 1 ≤ i && isTitleConnectable (stripAt lines (i - 1)) then
    (if 2 ≤ i && isTitleConnectable (stripAt lines (i - 2)) then
      validateTitle (stripAt lines (i - 2) ++ stripAt lines (i - 1) ++ s)
     else none).orElse fun _ =>
      validateTitle (stripAt lines (i - 1) ++ s)
  else none

/-- One iteration of `guess_title`'s pattern-1 loop at index `i`.  The first
branch's `continue` statements skip the remaining branches, which is
equivalent to this `if`/`else` because their length guards are disjoint. -/
def titlePass1At (lines : List String) (i : Nat) : Option String :=
  let s := stripAt lines i
  if 10 ≤ s.length && s.length ≤ 120 && titleEndingAny s then
    if isOcrGarbledTitle s || numberedItemMatch s then none
    else (connectAt lines i s).orElse fun _ => some s
  else
    (if 3 ≤ s.length && s.length ≤ 9 && titleEndingAny s then
       connectAt lines i s
     else none).orElse fun _ =>
      if 3 ≤ s.length && s.length < 10 && i + 1 < lines.length then
        let combined := s ++ stripAt lines (i + 1)
        if 10 ≤ combined.length && combined.length ≤ 120 &&
           titleEndingAny combined then
          validateTitle combined
        else none
      else none

/-- Pure punctuation/digit line filter of pattern 2
(`^[\d\-\s\(\)（）・ 　]+$`). -/
def punctDigitOnly (s : String) : Bool :=
  s.data ≠ [] && s.data.all fun c =>
    isDigitCh c || c = '-' || isPyWs c || inStr "()（）・ 　" c

/-- One iteration of `guess_title`'s pattern-2 loop at index `li`. -/
def titlePass2At (lines : List String) (li : Nat) : Option String :=
  let s := stripAt lines li
  if s.length < 8 || 120 < s.length then none
  else if punctDigitOnly s then none
  else if headerAny s then none
  else if midSentenceMatch s then none
  else if !isMeaningfulTitle s then none
  else if isOcrGarbledTitle s then none
  else if numberedItemMatch s then none
  else
    if li + 1 < lines.length then
      let combined := s ++ stripAt lines (li + 1)
      match validateTitle combined with
      | some result => if titleEndingAny combined then some result else some s
      | none => some s
    else some s

/-- First `some` value of `f` over a list of indices. -/
def firstSome (f : Nat → Option String) : List Nat → Option String
  | [] => none
  | i :: rest =>
    match f i with
    | some r => some r
    | none => firstSome f rest

/-- `guess_title` — the notice-title guesser. -/
def guessTitle (text fallback : String) : String :=
  let lines := splitlines text
  ((firstSome (titlePass1At lines) (List.range (min 100 lines.length))).orElse fun _ =>
    firstSome (titlePass2At lines) (List.range (min 80 lines.length))).getD fallback

end NoticeForge

namespace NoticeForge

/-! ## Summarizer (`_normalize_line`, `_format_summary`, `make_summary*`) -/

/-- Space or tab (`[ \t]`). -/
def isSpaceTab (c : Char) : Bool := c = ' ' || c = '\t'

/-- First substitution of `_normalize_line`: remove `[ \t]+` between two
Japanese characters.  As in `re.sub`, matches do not overlap: both Japanese
characters are consumed, so scanning resumes after the second one. -/
def normalize1Go : Nat → List Char → List Char
  | 0, l => l
  | _, [] => []
  | fuel + 1, c :: rest =>
    if isJp c then
      let spLen := (rest.takeWhile isSpaceTab).length
      if 0 < spLen then
        match rest.drop spLen with
        | d :: tail =>
          if isJp d then c :: d :: normalize1Go fuel tail
          else c :: normalize1Go fuel rest
        | [] => c :: normalize1Go fuel rest
      else c :: normalize1Go fuel rest
    else c :: normalize1Go fuel rest

/-- Entry point of the first substitution; one fuel unit per consumed
character keeps the recursion structural and kernel-computable. -/
def normalize1 (l : List Char) : List Char := normalize1Go (l.length + 1) l

/-- Second substitution of `_normalize_line`: collapse `[ \t]{2,}` to one
space (a single space or tab is left unchanged). -/
def collapse2Go : Nat → List Char → List Char
  | 0, l => l
  | _, [] => []
  | fuel + 1, c :: rest =>
    if isSpaceTab c then
      let spLen := (rest.takeWhile isSpaceTab).length
      if 0 < spLen then ' ' :: collapse2Go fuel (rest.drop spLen)
      else c :: collapse2Go fuel rest
    else c :: collapse2Go fuel rest

/-- Entry point of the second substitution. -/
def collapse2 (l : List Char) : List Char := collapse2Go (l.length + 1) l

/-- `_normalize_line`. -/
def normalizeLine (s : String) : String := ⟨collapse2 (normalize1 s.data)⟩

/-- Line-final `[。、」）\)]\s*$` test used by the continuation joiner. -/
def lineEndsClosed (s : String) : Bool :=
  reSearchB (pseqs [pcls (inStr "。、」）)"), pstar isPyWs, pend]) s

/-- `_join_short_continuation_lines`. -/
def joinShortCont : List String → List String
  | [] => []
  | [s] => [s]
  | s :: t :: rest =>
    if isGarbageLine s || terminatorMatch s then s :: joinShortCont (t :: rest)
    else if s.length < 10 && !bulletMatch s && !isGarbageLine t &&
            !lineEndsClosed s then
      (s ++ t) :: joinShortCont rest
    else s :: joinShortCont (t :: rest)

/-- The accumulation loop of `_format_summary` (state: accumulated lines,
character count, previous-line-blank flag, initial phase flag). -/
def fsLoop (n : Int) (titleHint : String) :
    List String → List String → Nat → Bool → Bool → List String
  | [], acc, _, _, _ => acc
  | line :: rest, acc, cc, prevBlank, initialPhase =>
    let stripped := pyStrip line
    if terminatorMatch stripped then acc
    else if stripped.data = [] then
      if acc ≠ [] && !prevBlank then fsLoop n titleHint rest (acc ++ [""]) cc true initialPhase
      else fsLoop n titleHint rest acc cc true initialPhase
    else if isGarbageLine stripped then fsLoop n titleHint rest acc cc false initialPhase
    else if isHeaderOrFooter stripped then fsLoop n titleHint rest acc cc false initialPhase
    else if initialPhase && titleEndingAny stripped && stripped.length ≤ 200 then
      fsLoop n titleHint rest acc cc false true
    else if initialPhase && titleHint.data ≠ [] && isSimilarToTitle stripped titleHint then
      fsLoop n titleHint rest acc cc false true
    else
      let acc2 := acc ++ [stripped]
      let cc2 := cc + stripped.length
      if n ≤ (cc2 : Int) then acc2
      else fsLoop n titleHint rest acc2 cc2 false false

/-- `_format_summary` — normalize, join, filter and truncate a text block.
The budget is an `Int` because `make_summary` passes `n - 20`, which can be
negative in Python. -/
def formatSummary (core : String) (n : Int) (titleHint : String) : String :=
  let rawLines := (splitlines core).map fun l => normalizeLine (pyStrip l)
  let merged := joinShortCont rawLines
  let resultLines := fsLoop n titleHint merged [] 0 false true
  truncZ (pyRstrip (joinNL resultLines)) n

/-- Sentence-final `。\s*$` test. -/
def sentenceEndSearch (s : String) : Bool :=
  reSearchB (pseqs [pcls (fun c => c = '。'), pstar isPyWs, pend]) s

/-- The intent-sentence loop over the pre-`記` lines of `make_summary`. -/
def intentLoop (hint : String) : List String → String → String
  | [], _ => ""
  | raw :: rest, buf =>
    let s := normalizeLine (pyStrip raw)
    if s.data = [] || isGarbageLine s || isHeaderOrFooter s then intentLoop hint rest buf
    else
      let buf2 := buf ++ s
      if titleEndingAny buf2 then intentLoop hint rest ""
      else if hint.data ≠ [] && isSimilarToTitle buf2 hint then intentLoop hint rest ""
      else if intentEndSearch buf2 then buf2
      else if sentenceEndSearch buf2 then buf2
      else if 200 ≤ buf2.length then ⟨buf2.data.take 200⟩
      else intentLoop hint rest buf2

/-- The `\n\s*記\s*\n` marker ("items follow" line). -/
def kiPat : Pat := pseqs [plit "\n", pstar isPyWs, plit "記", pstar isPyWs, plit "\n"]

/-- `について|に関する|に関して|に係る` search of the title-line scan. -/
def aboutSearch (s : String) : Bool :=
  reSearchB (palts [plit "について", plit "に関する", plit "に関して", plit "に係る"]) s

/-- Start-index scan of the no-`記` branch: the first line that looks like a
title (suffix phrase, or similar to the title hint) sets `start = i + 1`. -/
def noKiStartScan (hint : String) (lines : List String) : Nat :=
  go 0 (lines.take 80)
where
  go (i : Nat) : List String → Nat
  | [] => 0
  | l :: rest =>
    let s := pyStrip l
    if aboutSearch s && 10 ≤ s.length && s.length ≤ 200 then i + 1
    else if hint.data ≠ [] && isSimilarToTitle s hint && 8 ≤ s.length then i + 1
    else go (i + 1) rest

/-- Fallback start-index scan: the first meaningful non-header line is taken
as the title and skipped. -/
def noKiFallbackScan (lines : List String) : Nat :=
  go 0 (lines.take 80)
where
  go (i : Nat) : List String → Nat
  | [] => 0
  | l :: rest =>
    let s := pyStrip l
    if s.data ≠ [] && 8 ≤ s.length && s.length ≤ 150 && !headerAny s &&
       !midSentenceMatch s && isMeaningfulTitle s then i + 1
    else go (i + 1) rest

/-- The header-skipping `while` loop after the start index
(`while start < skip_end: ... start += 1`). -/
def advanceStart (lines : List String) : Nat → Nat → Nat
  | start, 0 => start
  | start, fuel + 1 =>
    let s := pyStrip (lines.getD start "")
    if s.data = [] || s.length < 5 || isHeaderOrFooter s then
      advanceStart lines (start + 1) fuel
    else start

/-- Index of the first occurrence of `needle` in `hay` (Python `str.index`;
the summarizer only calls it when the needle is present). -/
def subIndex (hay needle : String) : Nat := go 0 hay.data
where
  go (i : Nat) : List Char → Nat
  | [] => if needle.data.isPrefixOf [] then i else 0
  | a :: r => if needle.data.isPrefixOf (a :: r) then i else go (i + 1) r

/-- The fixed message returned when OCR quality suppresses summarization. -/
def ocrPlaceholder : String :=
  "（OCR品質が低いため概要を自動生成できません。元ファイルを直接ご確認ください。）"

/-- The threshold 0.25 below which summarization is suppressed, written in
normal form so the kernel can evaluate comparisons against it. -/
def qSuppress : ℚ := ⟨1, 4, by decide, by decide⟩

theorem qSuppress_eq : qSuppress = 1/4 := by
  apply Rat.ext <;> norm_num [qSuppress]

/-- The threshold 0.35 below which a record is review-flagged, in normal form. -/
def qReview : ℚ := ⟨7, 20, by decide, by decide⟩

theorem qReview_eq : qReview = 35/100 := by
  apply Rat.ext <;> norm_num [qReview]

/-- The composed (pre-truncation) summary of `make_summary`: intent/body
split at the `記` marker when present, title-skipping body format otherwise,
with the enforcement-date clause appended when it fits. -/
def makeSummaryCore (mainText : String) (n : Nat) (titleHint : String) : String :=
    let enforcementDate := extractEnforcementDate mainText
    let combined :=
      match searchPos kiPat mainText.data with
      | some pr =>
        let preKi : String := ⟨mainText.data.take pr.1⟩
        let postKi : String := ⟨mainText.data.drop (pr.1 + pr.2)⟩
        let intentResult := intentLoop titleHint (splitlines preKi) ""
        let bodyReserve : Int := (n : Int) - intentResult.length - 40
        let bodyPart := formatSummary postKi (max 200 bodyReserve) titleHint
        joinNL ((if intentResult.data ≠ [] then ["[趣旨] " ++ intentResult] else []) ++
                (if bodyPart.data ≠ [] then ["[要点]\n" ++ bodyPart] else []))
      | none =>
        let lines := splitlines mainText
        let start0 := noKiStartScan titleHint lines
        let start1 := if start0 = 0 then noKiFallbackScan lines else start0
        let skipEnd := min lines.length (start1 + 15)
        let start := advanceStart lines start1 (skipEnd - start1)
        let bodyText := joinNL (lines.drop start)
        let bodyFormatted := formatSummary bodyText ((n : Int) - 20) titleHint
        let firstSentence := (splitlines bodyFormatted).find? fun bl =>
          sentenceEndSearch bl || intentEndSearch bl
        match firstSentence with
        | some bline =>
          let restIdx := subIndex bodyFormatted bline + bline.length
          let restPart := pyStrip ⟨bodyFormatted.data.drop restIdx⟩
          joinNL (["[趣旨] " ++ bline] ++
                  (if restPart.data ≠ [] then ["[要点]\n" ++ restPart] else []))
        | none =>
          joinNL (if bodyFormatted.data ≠ [] then [bodyFormatted] else [])
    let combined2 :=
      if enforcementDate.data ≠ [] && !containsSub combined enforcementDate then
        let suffix := "\n[施行・適用] " ++ enforcementDate
        if ((combined.length + suffix.length : Nat) : Int) ≤ (n : Int) + 40 then
          combined ++ suffix
        else combined
      else combined
    combined2

/-- `make_summary` — the notice summarizer. -/
def makeSummary (mainText : String) (n : Nat) (titleHint : String)
    (ocrQuality : ℚ) : String :=
  if (pyStrip mainText).data = [] then ""
  else if ocrQuality < qSuppress then ocrPlaceholder
  else truncN (makeSummaryCore mainText n titleHint) n

end NoticeForge

namespace NoticeForge

/-! ## Law and manual summarizers -/

/-- `^第[一1１]条` — first-article heading. -/
def firstArticleMatch (s : String) : Bool :=
  reMatchB (pseqs [plit "第", pcls (inStr "一1１"), plit "条"]) s

/-- `^第[二三四五2-9２-９]` — next-article boundary. -/
def nextArticleMatch (s : String) : Bool :=
  reMatchB (pseqs [plit "第",
    pcls (fun c => inStr "二三四五" c || ('2' ≤ c && c ≤ '9') ||
                   (0xFF12 ≤ c.toNat && c.toNat ≤ 0xFF19))]) s

/-- Collect the purpose-article body lines until the next article boundary. -/
def lawPurposeCollect : List String → List String
  | [] => []
  | l :: rest =>
    let nextS := pyStrip l
    if nextArticleMatch nextS then []
    else if nextS.data ≠ [] then nextS :: lawPurposeCollect rest
    else lawPurposeCollect rest

/-- Kanji numerals used in chapter headings (`[一二三四五六七八九十百]`). -/
def chapterNumCls (c : Char) : Bool := inStr "一二三四五六七八九十百" c

/-- Parse `^(第[一二三四五六七八九十百]+章)\s*(.*)` applied to a stripped line,
returning the chapter entry `g1 + " " + g2`. -/
def chapterParse (line : String) : Option String :=
  let s := pyStrip line
  match s.data with
  | '第' :: rest =>
    let nums := rest.takeWhile chapterNumCls
    if nums ≠ [] && (rest.drop nums.length).headD ' ' = '章' then
      let after := (rest.drop (nums.length + 1)).dropWhile isPyWs
      some (("第" : String) ++ String.mk nums ++ "章 " ++ String.mk after)
    else none
  | _ => none

/-- Numeral class of article headings (`[一二三四五六七八九十百千\d１-９０]`). -/
def articleNumCls (c : Char) : Bool :=
  inStr "一二三四五六七八九十百千" c || isDigitCh c || isFwDigit c

/-- Numeral class of article sub-numbers (`[一二三四五六七八九十\d１-９０]`). -/
def articleSubNumCls (c : Char) : Bool :=
  inStr "一二三四五六七八九十" c || isDigitCh c || isFwDigit c

/-- Parse `^(第[…]+条(?:の[…]+)?)\s*[（(]([^）)]+)[）)]` applied to a stripped
line, returning `g1（g3）`. -/
def articleHeadParse (line : String) : Option String :=
  let s := pyStrip line
  match s.data with
  | '第' :: rest =>
    let nums := rest.takeWhile articleNumCls
    if nums ≠ [] && (rest.drop nums.length).headD ' ' = '条' then
      let afterJo := rest.drop (nums.length + 1)
      let (g1Extra, afterOpt) :=
        match afterJo with
        | 'の' :: r2 =>
          let nums2 := r2.takeWhile articleSubNumCls
          if nums2 ≠ [] then (("の" : String) ++ String.mk nums2, r2.drop nums2.length)
          else ("", afterJo)
        | _ => ("", afterJo)
      let afterWs := afterOpt.dropWhile isPyWs
      match afterWs with
      | p :: r3 =>
        if p = '（' || p = '(' then
          let g3 := r3.takeWhile fun c => !(c = '）' || c = ')')
          if g3 ≠ [] && (r3.drop g3.length).headD ' ' ∈ ['）', ')'] then
            some (("第" : String) ++ String.mk nums ++ "条" ++ g1Extra ++ "（" ++
                  String.mk g3 ++ "）")
          else none
        else none
      | [] => none
    else none
  | _ => none

/-- The structural parts (`[目的]`, `[構成]`, `[条文構成]`, `[施行日]`) collected
by `make_summary_law`. -/
def makeSummaryLawParts (text : String) : List String :=
  let lines := splitlines text
  let purposeText :=
    match goFind lines 0 with
    | some (i, s) =>
      let buf := s :: lawPurposeCollect
        ((lines.drop (i + 1)).take (min (i + 20) lines.length - (i + 1)))
      let p := String.join buf
      if 300 < p.length then String.mk (p.data.take 300) ++ "…" else p
    | none => ""
  let chapters := lines.filterMap chapterParse
  let articleHeads := lines.filterMap articleHeadParse
  (if purposeText.data ≠ [] then ["[目的] " ++ purposeText] else []) ++
  (if chapters ≠ [] then ["[構成]\n" ++ joinNL (chapters.take 15)] else []) ++
  (if articleHeads ≠ [] && chapters = [] then
    ["[条文構成]\n" ++ joinNL (articleHeads.take 20)] else []) ++
  (let d := extractEnforcementDate text
   if d.data ≠ [] then ["[施行日] " ++ d] else [])
where
  goFind : List String → Nat → Option (Nat × String)
  | [], _ => none
  | l :: rest, i =>
    let s := pyStrip l
    if firstArticleMatch s then some (i, s) else goFind rest (i + 1)

/-- `make_summary_law` — the law summarizer. -/
def makeSummaryLaw (text : String) (n : Nat) (titleHint : String) : String :=
  if (pyStrip text).data = [] then ""
  else if makeSummaryLawParts text = [] then formatSummary text (n : Int) titleHint
  else truncN (joinNL (makeSummaryLawParts text)) n

/-- Heading keywords of the manual summarizer
(`目的|趣旨|はじめに|概要|対象`). -/
def manualKeySearch (s : String) : Bool :=
  reSearchB (palts [plit "目的", plit "趣旨", plit "はじめに", plit "概要",
                    plit "対象"]) s

/-- Collect following non-blank lines for the manual purpose block (a blank
line ends the block once something was collected). -/
def manCollect (acc : List String) : List String → List String
  | [] => acc
  | l :: rest =>
    let s := pyStrip l
    if s.data = [] then (if acc ≠ [] then acc else manCollect acc rest)
    else manCollect (acc ++ [s]) rest

/-- `^(?:\d+[\.．\s]|第\d+[章節項]|[（(]\d+[）)])` — numbered-heading test. -/
def manualHeadingMatch (s : String) : Bool :=
  reMatchB
    (palts
      [ pseqs [pplus isDigitCh, pcls (fun c => c = '.' || c = '．' || isPyWs c)],
        pseqs [plit "第", pplus isDigitCh, pcls (inStr "章節項")],
        pseqs [pcls (inStr "（("), pplus isDigitCh, pcls (inStr "）)")] ]) s

/-- The structural parts (`[目的]`, `[構成]`) collected by
`make_summary_manual`. -/
def makeSummaryManualParts (text : String) : List String :=
  let lines := splitlines text
  let purposeText := goPurpose lines (lines.take 100) 0
  let headings := (lines.take 200).filter fun l =>
    let s := pyStrip l
    manualHeadingMatch s && 5 ≤ s.length && s.length ≤ 80
  let headingsS := headings.map pyStrip
  (if purposeText.data ≠ [] then ["[目的] " ++ purposeText] else []) ++
  (if headingsS ≠ [] then ["[構成]\n" ++ joinNL (headingsS.take 15)] else [])
where
  goPurpose (all : List String) : List String → Nat → String
  | [], _ => ""
  | l :: rest, i =>
    let s := pyStrip l
    if manualKeySearch s && 4 ≤ s.length then
      let buf := manCollect []
        ((all.drop (i + 1)).take (min (i + 10) all.length - (i + 1)))
      if buf ≠ [] then
        let p := String.join buf
        if 200 < p.length then String.mk (p.data.take 200) ++ "…" else p
      else goPurpose all rest (i + 1)
    else goPurpose all rest (i + 1)

/-- The plain fallback accumulation of `make_summary_manual`. -/
def manualFallback (n : Nat) : List String → List String → Nat → List String
  | [], acc, _ => acc
  | l :: rest, acc, cc =>
    let s := pyStrip l
    if s.data = [] || isGarbageLine s then manualFallback n rest acc cc
    else
      let acc2 := acc ++ [s]
      let cc2 := cc + s.length
      if n ≤ cc2 then acc2 else manualFallback n rest acc2 cc2

/-- `make_summary_manual` — the manual summarizer. -/
def makeSummaryManual (text : String) (n : Nat) (titleHint : String) : String :=
  if (pyStrip text).data = [] then ""
  else if makeSummaryManualParts text = [] then
    truncN (joinNL (manualFallback n (splitlines text) [] 0)) n
  else truncN (joinNL (makeSummaryManualParts text)) n

end NoticeForge

namespace NoticeForge

/-! ## OCR quality scorer (`_compute_ocr_quality`) -/

/-- Meaningful-line keyword search
(`について|に関する|通知|消防|危険物|規則|政令|省令|条例|届出|許可|検査|安全`). -/
def meaningfulLineSearch (s : String) : Bool :=
  [ "について", "に関する", "通知", "消防", "危険物", "規則", "政令", "省令",
    "条例", "届出", "許可", "検査", "安全" ].any (containsSub s)

/-- Round to two decimals.  Python's `round` on floats rounds half to even in
binary; exact two-decimal ties never arise for the reachable scores, so the
standard rational rounding is used for both the code side and the spec side. -/
def round2 (q : ℚ) : ℚ := ((round (q * 100) : ℤ) : ℚ) / 100

/-- The stripped non-empty lines of a text (`[l.strip() for l in
text.splitlines() if l.strip()]`). -/
def ocrLines (text : String) : List String :=
  ((splitlines text).map pyStrip).filter fun l => l.data ≠ []

/-- `_compute_ocr_quality` — transcribed from the source. -/
def computeOcrQuality (text : String) : ℚ :=
  if (pyStrip text).data = [] then 0
  else
    let lines := ocrLines text
    if lines = [] then 0
    else
      let totalChars := (lines.map String.length).sum
      if totalChars = 0 then 0
      else
        let jpChars := (text.data.filter isJp).length
        let jpRatio : ℚ := (jpChars : ℚ) / (totalChars : ℚ)
        let garbageRatio : ℚ :=
          ((lines.filter isGarbageLine).length : ℚ) / (lines.length : ℚ)
        let meaningfulRatio : ℚ :=
          ((lines.filter meaningfulLineSearch).length : ℚ) / (lines.length : ℚ)
        let avgLen : ℚ := (totalChars : ℚ) / (lines.length : ℚ)
        let lenScore : ℚ := min 1 (avgLen / 25)
        let score := jpRatio * (35/100) + (1 - garbageRatio) * (25/100) +
                     meaningfulRatio * (20/100) + lenScore * (20/100)
        round2 (min 1 (max 0 score))

/-- The OCR quality score as worded by the specification: for non-whitespace
text, `0.35·(domain-script character ratio) + 0.25·(1 − garbage-line ratio) +
0.20·(meaningful-line ratio) + 0.20·(average non-empty-line length / 25,
capped at 1)`, clamped to `[0, 1]` and rounded to 2 decimals; `0.0` for empty
or whitespace-only text. -/
def ocrQualitySpec (text : String) : ℚ :=
  if (pyStrip text).data = [] then 0
  else
    let lines := ocrLines text
    let totalChars := (lines.map String.length).sum
    let scriptRatio : ℚ := ((text.data.filter isJp).length : ℚ) / (totalChars : ℚ)
    let garbageRatio : ℚ :=
      ((lines.filter isGarbageLine).length : ℚ) / (lines.length : ℚ)
    let meaningfulRatio : ℚ :=
      ((lines.filter meaningfulLineSearch).length : ℚ) / (lines.length : ℚ)
    let avgLen : ℚ := (totalChars : ℚ) / (lines.length : ℚ)
    round2 (min 1 (max 0
      ((35 : ℚ)/100 * scriptRatio + (25 : ℚ)/100 * (1 - garbageRatio) +
       (20 : ℚ)/100 * meaningfulRatio + (20 : ℚ)/100 * min 1 (avgLen / 25))))

end NoticeForge

namespace NoticeForge

/-! ## Dates, era conversion, document-type detection, main/attach split -/

/-- Digit-or-`元` year class `[0-9元]`. -/
def isYearCh (c : Char) : Bool := isDigitCh c || c = '元'

/-- `(令和|平成|昭和)\s*[0-9元]+\s*年` — the era-year pattern of
`convert_japanese_year`. -/
def cjyPat : Pat :=
  pseqs [palts [plit "令和", plit "平成", plit "昭和"], pstar isPyWs,
         pplus isYearCh, pstar isPyWs, plit "年"]

/-- Decimal value of a digit string (`int`). -/
def parseNat (l : List Char) : Nat := l.foldl (fun a c => a * 10 + (c.toNat - 48)) 0

/-- Replacement for one `convert_japanese_year` match: append the western year.
A matched year string mixing digits with `元` makes the Python `int()` call
raise, aborting the run; that unreachable case is modelled as no replacement. -/
def cjyRepl (g0 : List Char) : List Char :=
  let era := g0.take 2
  let ys := g0.filter isYearCh
  let yOpt : Option Nat :=
    if ys = ['元'] then some 1
    else if ys ≠ [] && ys.all isDigitCh then some (parseNat ys)
    else none
  match yOpt with
  | none => g0
  | some y =>
    let west :=
      if era = "令和".data then 2018 + y
      else if era = "平成".data then 1988 + y
      else 1925 + y
    g0 ++ ("（".data ++ (toString west).data ++ "年）".data)

/-- The `re.sub` scan of `convert_japanese_year`: non-overlapping left-to-right
replacement. -/
def cjyGo : Nat → List Char → List Char
  | 0, l => l
  | _, [] => []
  | fuel + 1, c :: rest =>
    match runPat cjyPat (c :: rest) with
    | some rem =>
      let g0 := (c :: rest).take ((c :: rest).length - rem.length)
      cjyRepl g0 ++ cjyGo fuel (if rem.length ≤ rest.length then rem else rest)
    | none => c :: cjyGo fuel rest

/-- `convert_japanese_year`. -/
def convertJapaneseYear (text : String) : String :=
  ⟨cjyGo (text.data.length + 1) text.data⟩

/-- `(令和|平成|昭和)\s*[0-9元]+\s*年\s*\d+\s*月\s*\d+\s*日(（\d{4}年）)?` —
the first pattern of `guess_date`. -/
def eraDateOptYearPat : Pat :=
  pseq eraDatePat
    (popt (pseqs [plit "（", prange isDigitCh 4 4, plit "年）"]))

/-- `\d{4}\s*年\s*\d{1,2}\s*月\s*\d{1,2}\s*日` — the plain-date pattern. -/
def plainDatePat : Pat :=
  pseqs [prange isDigitCh 4 4, pstar isPyWs, plit "年", pstar isPyWs,
         prange isDigitCh 1 2, pstar isPyWs, plit "月", pstar isPyWs,
         prange isDigitCh 1 2, pstar isPyWs, plit "日"]

/-- `guess_date`. -/
def guessDate (text : String) : String :=
  match reSearchG0 eraDateOptYearPat text with
  | some g0 => g0
  | none => (reSearchG0 plainDatePat text).getD ""

/-- Maximal runs of ASCII digits in a character list. -/
def digitRunsGo : Nat → List Char → List (List Char)
  | 0, _ => []
  | _, [] => []
  | fuel + 1, c :: rest =>
    if isDigitCh c then
      let run := rest.takeWhile isDigitCh
      (c :: run) :: digitRunsGo fuel (rest.drop run.length)
    else digitRunsGo fuel rest

/-- Entry point for digit-run extraction. -/
def digitRuns (l : List Char) : List (List Char) := digitRunsGo (l.length + 1) l

/-- Zero-padded two-digit rendering of a digit group (`f"{int(g):02d}"`). -/
def pad2 (l : List Char) : String :=
  let n := parseNat l
  if n < 10 then "0" ++ toString n else toString n

/-- `（(\d{4})年）` — parenthesised western year. -/
def parenYearPat : Pat := pseqs [plit "（", prange isDigitCh 4 4, plit "年）"]

/-- `(\d{1,2})\s*月\s*(\d{1,2})\s*日` — month/day pattern. -/
def monthDayPat : Pat :=
  pseqs [prange isDigitCh 1 2, pstar isPyWs, plit "月", pstar isPyWs,
         prange isDigitCh 1 2, pstar isPyWs, plit "日"]

/-- `_date_to_sort_key` — `YYYYMMDD` sort key, `"99999999"` when unparsable.
The captured groups are recovered as the digit runs of the matched text. -/
def dateToSortKey (dateStr : String) : String :=
  if dateStr.data = [] then "99999999"
  else
    match reSearchG0 plainDatePat dateStr with
    | some g0 =>
      match digitRuns g0.data with
      | [y, m, d] => String.mk y ++ pad2 m ++ pad2 d
      | _ => "99999999"
    | none =>
      match reSearchG0 parenYearPat dateStr with
      | some gy =>
        let y := String.mk ((digitRuns gy.data).headD [])
        match reSearchG0 monthDayPat dateStr with
        | some gmd =>
          match digitRuns gmd.data with
          | [m, d] => y ++ pad2 m ++ pad2 d
          | _ => y ++ "0101"
        | none => y ++ "0101"
      | none => "99999999"

/-- `split_main_attach`.  The configured split keywords are matched with
`re.match(k, line)`; they are modelled as literal line prefixes. -/
def splitMainAttach (text : String) (kws : List String) : String × String :=
  let lines := splitlines text
  match goCut kws lines 0 with
  | some i =>
    if 5 < i then (pyStrip (joinNL (lines.take i)), pyStrip (joinNL (lines.drop i)))
    else (pyStrip text, "")
  | none => (pyStrip text, "")
where
  goCut (kws : List String) : List String → Nat → Option Nat
  | [], _ => none
  | l :: rest, i =>
    if kws.any (fun k => k.data.isPrefixOf l.data) then some i
    else goCut kws rest (i + 1)

/-- `_LAW_ARTICLE_RE` — `第[一二三四五六七八九十百千\d１-９０]+条`. -/
def lawArticlePat : Pat := pseqs [plit "第", pplus articleNumCls, plit "条"]

/-- The folder portion of a relative path
(`rel_path.replace("\\", "/").rsplit("/", 1)[0]`, empty without a slash). -/
def folderOf (relPath : String) : String :=
  let norm := relPath.data.map fun c => if c = '\\' then '/' else c
  if norm.contains '/' then
    let afterLast := (norm.reverse.takeWhile fun c => c ≠ '/').length
    String.mk (norm.take (norm.length - afterLast - 1))
  else ""

/-- `_detect_doc_type`. -/
def detectDocType (relPath : String) (text : String) : String :=
  let folder := folderOf relPath
  if ["法令", "法律", "政令", "省令", "規則", "施行令", "施行規則", "条例",
      "告示", "訓令", "条文"].any (containsSub folder) then "法令"
  else if ["マニュアル", "手順書", "手引き", "てびき", "ガイド", "ガイドライン",
           "要領", "要綱", "内規", "規程", "SOP", "社内", "内部"].any
          (containsSub folder) then "マニュアル"
  else
    let target : String := ⟨text.data.take 10000⟩
    if 5 ≤ countMatches lawArticlePat target.data then
      if ["通知する", "依頼する", "連絡する", "送付する"].any
         (containsSub ⟨target.data.take 3000⟩) then "通知"
      else "法令"
    else "通知"

end NoticeForge

namespace NoticeForge

/-! ## Data model and run loop (`Record`, `process_folder`)

Directory walking, file reading, per-format extraction and cryptographic
hashing are external collaborators (spec §1, §6): they enter the model as
oracles in `RunParams`.  Byte-identical files have equal `content`, hence
equal hash (`hashFn` is a function of the content); a hash failure is the
empty string, as in `compute_sha1`. -/

/-- One record per input file — the `Record` dataclass. -/
structure Record where
  relpath : String
  ext : String
  size : Nat
  mtime : Int
  sha1 : String
  method : String
  pages : Option Nat
  text_chars : Nat
  needs_review : Bool
  reason : String
  title_guess : String
  date_guess : String
  issuer_guess : String
  summary : String
  tags_facility : List String
  tags_work : List String
  tag_evidence : List (String × List String)
  out_txt : String
  full_text_for_bind : String
  doc_type : String
  ocr_quality : ℚ
  related_laws : List String
  amendments : List String
  date_sort_key : String
deriving Repr, DecidableEq

/-- A candidate input file as produced by the directory walk. -/
structure SrcFile where
  relpath : String
  extRaw : String
  content : String
  size : Nat
  mtime : Int
deriving Repr, DecidableEq

/-- Outcome of the external per-format extraction call. -/
inductive ExtOutcome where
  | ok (text : String) (pages : Option Nat) (method : String)
  | exn (ename : String)
deriving Repr, DecidableEq

/-- External collaborators and configuration of one run. -/
structure RunParams where
  hashFn : String → String
  extractFn : SrcFile → ExtOutcome
  tesseract : Bool
  xdwlib : Bool
  splitKws : List String

/-- `_CACHE_VERSION = 5`. -/
def _CACHE_VERSION : Int := 5

/-- Extensions dispatched to an extractor by `process_folder`; all others get
`method = "unhandled"`. -/
def handledExts : List String :=
  [".pdf", ".docx", ".xlsx", ".xlsm", ".xls", ".xdw", ".xbd", ".txt", ".csv"]

/-- The extraction dispatch of `process_folder` (text, method, reason, pages):
a raised exception yields `method = "error"` with the reason string, an
unhandled extension yields `("", "unhandled", "", None)`. -/
def runExtract (P : RunParams) (f : SrcFile) (ext : String) :
    String × String × String × Option Nat :=
  if ext ∈ handledExts then
    match P.extractFn f with
    | .ok t p m => (t, m, "", p)
    | .exn e => ("", "error", "抽出エラー: " ++ e, none)
  else ("", "unhandled", "", none)

/-- Python float repr of a two-decimal quality score (`f"{ocr_q}"`), for the
reachable values `k / 100` with `k ∈ [0, 100]`. -/
def fmtScore (q : ℚ) : String :=
  if q = 1 then "1.0"
  else
    let k := (q * 100).num.toNat
    if k % 10 = 0 then "0." ++ toString (k / 10)
    else if k < 10 then "0.0" ++ toString k
    else "0." ++ toString k

/-- The `needs_review` / `reason` decision chain of `process_folder`
(lines 2796–2830 of the source). -/
def reviewDecision (P : RunParams) (ext method reason0 : String)
    (textLen fileSize : Nat) (ocrQ : ℚ) : Bool × String :=
  let base : Bool × String :=
    if method = "unhandled" || method = "error" || containsSub method "missing" then
      (true,
        if reason0.data ≠ [] then reason0
        else if containsSub method "xdw_text_extractor_missing" then
          if P.xdwlib then
            "DocuWorks Viewer Light は検出済みですが、このファイルのテキスト抽出に失敗しました（文書が保護されている可能性）"
          else
            "DocuWorks テキスト抽出ツールが見つかりません。DocuWorks Viewer Light がインストール済みの場合は xdoc2txt.exe を追加してください: https://ebstudio.info/home/xdoc2txt.html"
        else if method = "unhandled" then "未対応ファイル形式 (" ++ ext ++ ")"
        else if containsSub method "pymupdf_missing" then
          "PyMuPDFが未インストール（pip install PyMuPDF）"
        else if containsSub method "excel_lib_missing" then
          "Excelライブラリが未インストール（pip install openpyxl xlrd）"
        else "抽出失敗: " ++ method)
    else if ext ∈ [".xlsx", ".xlsm", ".xls", ".csv", ".txt"] then (false, reason0)
    else if textLen < 30 then
      (true,
        if ext = ".pdf" && !P.tesseract then
          "画像PDFの可能性（Tesseract OCRが未インストールのため読取不可）"
        else if ext = ".pdf" then
          "OCRを試みましたが読取できませんでした（スキャン品質が低い可能性）"
        else "本文がほぼ空です（" ++ toString textLen ++ "文字）")
    else if 30000 < fileSize && textLen < 100 then
      (true,
        "ファイルサイズ(" ++ toString (fileSize / 1024) ++
        "KB)に対して本文が短すぎます（" ++ toString textLen ++ "文字・画像PDF等の可能性）")
    else (false, reason0)
  if ocrQ < qReview && !base.1 then
    (true, "OCR品質が低い（スコア: " ++ fmtScore ocrQ ++ "）。元ファイルの目視確認を推奨")
  else base

/-- A freshly processed record (cache miss), per lines 2758–2857 of
`process_folder`.  The derived fields `title_guess`, `issuer_guess`,
`summary`, the tag lists, `related_laws` and `amendments` are exactly as the
source constructs them. -/
def freshRecord (P : RunParams) (f : SrcFile) (rel ext h : String) : Record :=
  let tmr := runExtract P f ext
  let text0 := tmr.1
  let method := tmr.2.1
  let reason0 := tmr.2.2.1
  let pages := tmr.2.2.2
  let text := convertJapaneseYear text0
  let ma := splitMainAttach text P.splitKws
  let main := ma.1
  let attach := ma.2
  let mainOr := if main.data = [] then text else main
  let docType := detectDocType rel mainOr
  let ocrQ := if containsSub method "ocr" then computeOcrQuality text else 1
  let dateGuess := guessDate text
  let dateSort := dateToSortKey dateGuess
  let textLen := mainOr.length
  let rv := reviewDecision P ext method reason0 textLen f.size ocrQ
  let payload :=
    "# 本文\n" ++ pyStrip main ++
    (if (pyStrip attach).data ≠ [] then "\n\n# 添付資料\n" ++ pyStrip attach else "")
  { relpath := rel
    ext := ext
    size := f.size
    mtime := f.mtime
    sha1 := h
    method := method
    pages := pages
    text_chars := text.length
    needs_review := rv.1
    reason := rv.2
    title_guess := ""
    date_guess := dateGuess
    issuer_guess := ""
    summary := ""
    tags_facility := []
    tags_work := []
    tag_evidence := []
    out_txt := ""
    full_text_for_bind := payload
    doc_type := docType
    ocr_quality := ocrQ
    related_laws := []
    amendments := []
    date_sort_key := dateSort }

/-- Mutable state of the per-file loop: accumulated records, the seen-hash
set, and the duplicate / cache-hit counters. -/
structure RunState where
  records : List Record
  seen : List String
  dup : Nat
  cacheUsed : Nat
deriving Repr, DecidableEq

/-- First manifest entry for a hash (`manifest[sha1]`). -/
def lookupManifest (manifest : List (String × Record)) (h : String) : Option Record :=
  (manifest.find? fun e => e.1 = h).map Prod.snd

/-- One iteration of the per-file loop of `process_folder`: duplicate check,
cache rehydration (all fields copied except `relpath` and `sha1`), else fresh
processing.  The hash is added to the seen set on both non-duplicate paths,
exactly as in the source. -/
def stepFile (P : RunParams) (manifest : List (String × Record))
    (st : RunState) (f : SrcFile) : RunState :=
  let rel := f.relpath
  let ext := asciiLower f.extRaw
  let h := P.hashFn f.content
  if h.data ≠ [] && st.seen.contains h then
    { st with dup := st.dup + 1 }
  else
    match (if h.data ≠ [] then lookupManifest manifest h else none) with
    | some cached =>
      { st with
        records := st.records ++ [{ cached with relpath := rel, sha1 := h }]
        seen := h :: st.seen
        cacheUsed := st.cacheUsed + 1 }
    | none =>
      { st with
        records := st.records ++ [freshRecord P f rel ext h]
        seen := h :: st.seen }

/-- The final type-grouped, date-descending ordering of `process_folder`
(lines 2859–2870): the intermediate whole-list sorts are overwritten by the
group-by-type rebuild, which equals this stable per-group descending sort.
Records whose `doc_type` is outside the three-type vocabulary are dropped by
the rebuild, exactly as in the source. -/
def strLtChars : List Char → List Char → Bool
  | [], [] => false
  | [], _ :: _ => true
  | _ :: _, [] => false
  | a :: as, b :: bs =>
    if a.val < b.val then true
    else if b.val < a.val then false
    else strLtChars as bs

/-- Python string `<`: code-point lexicographic comparison. -/
def strLtB (a b : String) : Bool := strLtChars a.data b.data

def sortRecords (rs : List Record) : List Record :=
  (List.insertionSort (fun a b => strLtB a.date_sort_key b.date_sort_key = false)
      (rs.filter fun r => r.doc_type = "法令")) ++
  (List.insertionSort (fun a b => strLtB a.date_sort_key b.date_sort_key = false)
      (rs.filter fun r => r.doc_type = "通知")) ++
  (List.insertionSort (fun a b => strLtB a.date_sort_key b.date_sort_key = false)
      (rs.filter fun r => r.doc_type = "マニュアル"))

/-- The version-tagged persisted cache object. -/
structure Manifest where
  version : Option Int
  entries : List (String × Record)
deriving Repr, DecidableEq

/-- Manifest loading (lines 2698–2710): on a version mismatch the whole cache
is discarded. -/
def loadManifest (m : Manifest) : List (String × Record) :=
  if m.version = some _CACHE_VERSION then m.entries else []

/-- The rewritten manifest (lines 2914–2925): every record that has a hash and
is not review-flagged. -/
def writeManifest (rs : List Record) : Manifest :=
  { version := some _CACHE_VERSION
    entries := (rs.filter fun r => r.sha1.data ≠ [] && !r.needs_review).map
      fun r => (r.sha1, r) }

/-- Result of one full run of the core loop. -/
structure RunResult where
  records : List Record
  dup : Nat
  cacheUsed : Nat
  manifestOut : Manifest
deriving Repr, DecidableEq

/-- `process_folder`, restricted to the core loop the claims are about:
hash → dedup → cache lookup → fresh processing, then sorting and the
manifest rewrite.  `files` is the directory-walk order. -/
def processFolder (P : RunParams) (loaded : List (String × Record))
    (files : List SrcFile) : RunResult :=
  let st := files.foldl (stepFile P loaded) ⟨[], [], 0, 0⟩
  let sorted := sortRecords st.records
  { records := sorted
    dup := st.dup
    cacheUsed := st.cacheUsed
    manifestOut := writeManifest sorted }

end NoticeForge

namespace NoticeForge

/-! ## Export batcher (`copy_source_files_batched`)

The filesystem enters as an oracle `sizeOf : relpath → Option byte-size`
(`None` when `os.path.isfile` fails); `shutil.copy2` is modelled as always
succeeding, and the collision-safe flattened destination names only affect
the on-disk file names, not which files go into which batch, so batch
entries are `(relpath, size)` pairs. -/

/-- 50 MB per-file limit. -/
def MAX_FILE_BYTES : Nat := 50 * 1024 * 1024

/-- 250 MB per-batch limit. -/
def MAX_BATCH_BYTES : Nat := 250 * 1024 * 1024

/-- State of the batching loop. -/
structure BatchState where
  batches : List (List (String × Nat))
  skipped : List (String × String)
  cur : List (String × Nat)
  curBytes : Nat
  curOpen : Bool
deriving Repr, DecidableEq

/-- `_flush()`: emit the current batch if it is open and non-empty. -/
def batchFlush (st : BatchState) : BatchState :=
  { st with
    batches := if st.curOpen && st.cur ≠ [] then st.batches ++ [st.cur] else st.batches
    cur := []
    curBytes := 0
    curOpen := false }

/-- One iteration of the batching loop over a record. -/
def batchStep (sizeOf : String → Option Nat) (slots : Nat)
    (st : BatchState) (r : Record) : BatchState :=
  if asciiLower r.ext ≠ ".pdf" then st
  else
    match sizeOf r.relpath with
    | none => st
    | some sz =>
      if MAX_FILE_BYTES < sz then
        { st with skipped := st.skipped ++
            [(r.relpath, "ファイルサイズ超過 (" ++ toString (sz / (1024 * 1024)) ++
              "MB > 50MB)")] }
      else
        let needNew := !st.curOpen || slots ≤ st.cur.length ||
                       MAX_BATCH_BYTES < st.curBytes + sz
        let st2 := if needNew then { batchFlush st with curOpen := true } else st
        { st2 with cur := st2.cur ++ [(r.relpath, sz)], curBytes := st2.curBytes + sz }

/-- `copy_source_files_batched` — batches and the skipped list. -/
def copySourceFilesBatched (sizeOf : String → Option Nat) (records : List Record)
    (slots : Nat) : List (List (String × Nat)) × List (String × String) :=
  let st := records.foldl (batchStep sizeOf slots) ⟨[], [], [], 0, false⟩
  let fin := batchFlush st
  (fin.batches, fin.skipped)

/-- The slot count passed by `process_folder`
(`max(50 - 1 - len(bundle_files), 0)`). -/
def pdfSlots (nBundles : Nat) : Nat := (max (50 - 1 - (nBundles : Int)) 0).toNat

end NoticeForge

namespace NoticeForge

/-! ## Claim C8: the OCR quality formula -/

theorem drop_len_takeWhile (p : Char → Bool) :
    (l : List Char) → l.drop ((l.takeWhile p).length) = l.dropWhile p
  | [] => rfl
  | c :: rest => by
    by_cases h : p c
    · simp [List.takeWhile_cons, List.dropWhile_cons, h, drop_len_takeWhile p rest]
    · simp [List.takeWhile_cons, List.dropWhile_cons, h]

theorem stripChars_eq_nil_iff (l : List Char) :
    stripChars l = [] ↔ l.all isPyWs := by
  constructor
  · intro h
    have h2 : (l.dropWhile isPyWs).reverse.dropWhile isPyWs = [] := by
      have := congrArg List.reverse h
      simpa [stripChars] using this
    have h3 : ∀ x ∈ (l.dropWhile isPyWs).reverse, isPyWs x :=
      List.dropWhile_eq_nil_iff.mp h2
    have h4 : (l.dropWhile isPyWs).all isPyWs := by
      rw [List.all_eq_true]
      intro x hx
      exact h3 x (List.mem_reverse.mpr hx)
    have h5 : (l.takeWhile isPyWs).all isPyWs := by
      rw [List.all_eq_true]
      intro x hx
      exact List.mem_takeWhile_imp hx
    calc l.all isPyWs
        = ((l.takeWhile isPyWs) ++ (l.dropWhile isPyWs)).all isPyWs := by
          rw [List.takeWhile_append_dropWhile]
      _ = true := by rw [List.all_append, h4, h5]; rfl
  · intro h
    have h1 : l.dropWhile isPyWs = [] := by
      rw [List.dropWhile_eq_nil_iff]
      intro x hx
      exact List.all_eq_true.mp h x hx
    simp [stripChars, h1]

theorem all_ws_of_splitlinesGo (fuel : Nat) (l : List Char) (hf : l.length < fuel)
    (h : ∀ line ∈ splitlinesGo fuel l, line.all isPyWs) : l.all isPyWs := by
  induction fuel generalizing l with
  | zero => omega
  | succ fuel ih =>
    match l with
    | [] => simp
    | c :: cs =>
      simp only [splitlinesGo] at h
      rcases hdrop : (c :: cs).drop
          (((c :: cs).takeWhile fun x => x ≠ '\n').length) with _ | ⟨d, tail⟩
      · rw [hdrop] at h
        simp only [List.mem_singleton, forall_eq] at h
        have hsplit := List.takeWhile_append_dropWhile (fun x => x ≠ '\n') (c :: cs)
        rw [drop_len_takeWhile] at hdrop
        rw [← hsplit, hdrop, List.append_nil]
        exact h
      · rw [hdrop] at h
        have hline : ((c :: cs).takeWhile fun x => x ≠ '\n').all isPyWs :=
          h _ (by simp)
        have hlen : tail.length < fuel := by
          have h2 := congrArg List.length hdrop
          rw [List.length_drop] at h2
          simp only [List.length_cons] at h2 hf ⊢
          omega
        have htail : tail.all isPyWs := by
          apply ih tail hlen
          intro line hm
          exact h line (by simp [hm])
        have hd : d = '\n' := by
          rw [drop_len_takeWhile] at hdrop
          have := List.head_dropWhile_not (fun x => x ≠ '\n') (l := c :: cs)
          rw [hdrop] at this
          simpa using this (by simp)
        have hsplit := List.takeWhile_append_dropWhile (fun x => x ≠ '\n') (c :: cs)
        rw [drop_len_takeWhile] at hdrop
        have hdn : isPyWs d = true := by rw [hd]; decide
        rw [← hsplit, hdrop, List.all_append, List.all_cons, hline, htail, hdn]
        rfl

theorem all_ws_of_splitlines (l : List Char)
    (h : ∀ line ∈ splitlinesChars l, line.all isPyWs) : l.all isPyWs :=
  all_ws_of_splitlinesGo (l.length + 1) l (by omega) h

theorem ocrLines_ne_nil {t : String} (h : (pyStrip t).data ≠ []) :
    ocrLines t ≠ [] := by
  intro hc
  apply h
  show stripChars t.data = []
  rw [stripChars_eq_nil_iff]
  apply all_ws_of_splitlines
  intro line hline
  have hmem : String.mk line ∈ (splitlinesChars t.data).map String.mk :=
    List.mem_map_of_mem _ hline
  have : pyStrip (String.mk line) ∈ (splitlines t).map pyStrip :=
    List.mem_map_of_mem _ hmem
  have hempty : (pyStrip (String.mk line)).data = [] := by
    by_contra hne
    have : pyStrip (String.mk line) ∈ ocrLines t := by
      rw [ocrLines, List.mem_filter]
      exact ⟨this, by simpa using hne⟩
    rw [hc] at this
    exact absurd this (List.not_mem_nil _)
  show line.all isPyWs
  exact (stripChars_eq_nil_iff line).mp hempty

theorem ocr_total_ne_zero {t : String} (h : ocrLines t ≠ []) :
    ((ocrLines t).map String.length).sum ≠ 0 := by
  have hpos : 0 < ((ocrLines t).map String.length).sum := by
    apply List.sum_pos
    · intro x hx
      rcases List.mem_map.mp hx with ⟨l, hl, rfl⟩
      have : l.data ≠ [] := by
        have := (List.mem_filter.mp hl).2
        simpa using this
      show 0 < l.data.length
      exact List.length_pos.mpr this
    · simpa using h
  omega

/-- C8 — for every non-empty, non-whitespace-only OCR text, the quality score
equals `0.35·(script ratio) + 0.25·(1 − garbage-line ratio) +
0.20·(meaningful-line ratio) + 0.20·min(1, avg line length / 25)`, clamped to
`[0, 1]` and rounded to two decimals; for empty or whitespace-only text it is
`0.0` — the source's `_compute_ocr_quality` equals the specified formula on
every input. -/
theorem C8_ocr_quality_formula (t : String) :
    computeOcrQuality t = ocrQualitySpec t := by
  by_cases h : (pyStrip t).data = []
  · simp [computeOcrQuality, ocrQualitySpec, h]
  · have hl := ocrLines_ne_nil h
    have ht := ocr_total_ne_zero hl
    simp only [computeOcrQuality, ocrQualitySpec, if_neg h, if_neg hl, if_neg ht]
    congr 2
    ring_nf

end NoticeForge

namespace NoticeForge

/-! ## Claim C6: summary length budget -/

theorem length_formatSummary_le (core : String) (n : Nat) (hint : String) :
    (formatSummary core (n : Int) hint).length ≤ n + 1 := by
  unfold formatSummary
  exact length_truncZ_le _ n

/-- C6 (counterexample) — the claim as stated fails: with budget `n = 10` and
OCR quality `0.1 < 0.25`, the notice summarizer returns the fixed 41-character
placeholder, exceeding `n + 1 = 11`. -/
theorem C6_counterexample :
    ¬ ((makeSummary "あ" 10 "" ⟨1, 10, by decide, by decide⟩).length ≤ 10 + 1) := by
  decide

/-- C6 (amended) — every summarizer path returns at most `n + 1` characters
(the ellipsis accounting for the extra one), except the notice path's
OCR-suppression placeholder: the notice bound holds whenever the OCR quality
is at least 0.25 (so the placeholder is not taken) or the budget admits the
41-character placeholder; the law and manual paths satisfy the bound
unconditionally. -/
theorem C6_summary_budget :
    (∀ (text hint : String) (n : Nat) (q : ℚ), (1/4 : ℚ) ≤ q ∨ 40 ≤ n →
       (makeSummary text n hint q).length ≤ n + 1) ∧
    (∀ (text hint : String) (n : Nat),
       (makeSummaryLaw text n hint).length ≤ n + 1) ∧
    (∀ (text hint : String) (n : Nat),
       (makeSummaryManual text n hint).length ≤ n + 1) := by
  refine ⟨?_, ?_, ?_⟩
  · intro text hint n q hq
    unfold makeSummary
    split_ifs with h1 h2
    · show (0 : Nat) ≤ n + 1
      omega
    · have h41 : ocrPlaceholder.length = 41 := by decide
      have h40 : 40 ≤ n := by
        rcases hq with hq | hq
        · rw [← qSuppress_eq] at hq
          exact absurd h2 (not_lt.mpr hq)
        · exact hq
      omega
    · exact length_truncN_le _ n
  · intro text hint n
    unfold makeSummaryLaw
    split_ifs with h1 h2
    · show (0 : Nat) ≤ n + 1
      omega
    · exact length_formatSummary_le _ n _
    · exact length_truncN_le _ n
  · intro text hint n
    unfold makeSummaryManual
    split_ifs with h1 h2
    · show (0 : Nat) ≤ n + 1
      omega
    · exact length_truncN_le _ n
    · exact length_truncN_le _ n

/-- C6 (witness) — the amended bound applied at a concrete input on each path. -/
theorem C6_summary_budget_witness :
    ((1/4 : ℚ) ≤ 1 ∨ 40 ≤ 50) ∧
    (makeSummary "あ" 50 "" 1).length ≤ 50 + 1 ∧
    (makeSummaryLaw "あ" 50 "").length ≤ 50 + 1 ∧
    (makeSummaryManual "あ" 50 "").length ≤ 50 + 1 :=
  ⟨Or.inl (by norm_num),
   C6_summary_budget.1 "あ" "" 50 1 (Or.inl (by norm_num)),
   C6_summary_budget.2.1 "あ" "" 50,
   C6_summary_budget.2.2 "あ" "" 50⟩

end NoticeForge

namespace NoticeForge

/-! ## Claim C9: low-score review flag and suppression placeholder -/

theorem reviewFlag_ite (q : ℚ) (h : q < qReview) (b : Bool × String) (s : String) :
    (if q < qReview && !b.1 then (true, s) else b).1 = true := by
  rcases b with ⟨b1, r⟩
  cases b1
  · rw [if_pos (by simp [h])]
  · split <;> rfl

theorem reviewDecision_flag (P : RunParams) (ext method reason0 : String)
    (textLen fileSize : Nat) (q : ℚ) (h : q < qReview) :
    (reviewDecision P ext method reason0 textLen fileSize q).1 = true := by
  unfold reviewDecision
  exact reviewFlag_ite q h _ _

theorem freshRecord_ocr_review (P : RunParams) (f : SrcFile) (rel ext h : String)
    (hq : (freshRecord P f rel ext h).ocr_quality < qReview) :
    (freshRecord P f rel ext h).needs_review = true := by
  unfold freshRecord at hq ⊢
  exact reviewDecision_flag P _ _ _ _ _ _ hq

/-- C9 (counterexample) — the claim as stated fails on whitespace-only input:
with OCR quality `0 < 0.25` the summarizer returns the empty string, not the
fixed placeholder message. -/
theorem C9_counterexample :
    (0 : ℚ) < 1/4 ∧ makeSummary "" 0 "" 0 ≠ ocrPlaceholder :=
  ⟨by norm_num, by decide⟩

/-- C9 (amended) — every freshly processed record whose OCR quality score is
below 0.35 has `needs_review = True`; and every summarizer invocation on
non-whitespace input text with an OCR quality score below 0.25 returns the
fixed placeholder message instead of a generated summary (on empty or
whitespace-only input the summarizer returns the empty string before the
quality check). -/
theorem C9_low_score_policy :
    (∀ (P : RunParams) (f : SrcFile) (rel ext h : String),
       (freshRecord P f rel ext h).ocr_quality < 35/100 →
       (freshRecord P f rel ext h).needs_review = true) ∧
    (∀ (text hint : String) (n : Nat) (q : ℚ),
       (pyStrip text).data ≠ [] → q < 1/4 →
       makeSummary text n hint q = ocrPlaceholder) := by
  constructor
  · intro P f rel ext h hq
    rw [← qReview_eq] at hq
    exact freshRecord_ocr_review P f rel ext h hq
  · intro text hint n q hne hq
    rw [makeSummary, if_neg hne, if_pos (by rw [qSuppress_eq]; exact hq)]

/-- Parameters of the concrete C9 witness run: a PDF whose OCR produced no
text at all, so the quality score is `0`. -/
def c9P : RunParams :=
  { hashFn := fun _ => "h0"
    extractFn := fun _ => .ok "" none "pdf_ocr"
    tesseract := true
    xdwlib := false
    splitKws := [] }

/-- The concrete file of the C9 witness. -/
def c9F : SrcFile :=
  { relpath := "a.pdf", extRaw := ".pdf", content := "x", size := 100, mtime := 0 }

/-- C9 (witness) — the amended policy applied at concrete inputs. -/
theorem C9_low_score_policy_witness :
    ((freshRecord c9P c9F "a.pdf" ".pdf" "h0").ocr_quality < 35/100 ∧
     (freshRecord c9P c9F "a.pdf" ".pdf" "h0").needs_review = true) ∧
    ((pyStrip "本文").data ≠ [] ∧ (0 : ℚ) < 1/4 ∧
     makeSummary "本文" 9 "" 0 = ocrPlaceholder) := by
  have hq : (freshRecord c9P c9F "a.pdf" ".pdf" "h0").ocr_quality < 35/100 := by
    have h0 : (freshRecord c9P c9F "a.pdf" ".pdf" "h0").ocr_quality = 0 := by decide
    rw [h0]
    norm_num
  have hne : (pyStrip "本文").data ≠ [] := by decide
  have hlt : (0 : ℚ) < 1/4 := by norm_num
  exact ⟨⟨hq, C9_low_score_policy.1 c9P c9F "a.pdf" ".pdf" "h0" hq⟩,
         ⟨hne, hlt, C9_low_score_policy.2 "本文" "" 9 0 hne hlt⟩⟩

end NoticeForge

namespace NoticeForge

/-! ## Claim C3: the rewritten cache holds no review-flagged record -/

/-- C3 — every hash → record entry of the manifest rewritten at the end of a
run has `needs_review = False`: review-flagged records are never persisted, so
flagged files are recomputed on the next run. -/
theorem C3_manifest_no_review (P : RunParams) (loaded : List (String × Record))
    (files : List SrcFile) :
    ∀ e ∈ (processFolder P loaded files).manifestOut.entries,
      e.2.needs_review = false := by
  intro e he
  simp only [processFolder, writeManifest] at he
  rcases List.mem_map.mp he with ⟨r, hr, rfl⟩
  have h2 := (List.mem_filter.mp hr).2
  simp only [Bool.and_eq_true, Bool.not_eq_true'] at h2
  exact h2.2

/-- Parameters of the concrete C3 witness run. -/
def c3P : RunParams :=
  { hashFn := fun _ => "h3"
    extractFn := fun _ => .ok "資料のテキストです。" none "txt_read"
    tesseract := false
    xdwlib := false
    splitKws := [] }

/-- The concrete file of the C3 witness. -/
def c3F : SrcFile :=
  { relpath := "a.txt", extRaw := ".txt", content := "y", size := 10, mtime := 0 }

/-- C3 (witness) — the theorem applied to a concrete entry of a concrete run. -/
theorem C3_manifest_no_review_witness :
    ("h3", freshRecord c3P c3F "a.txt" ".txt" "h3") ∈
      (processFolder c3P [] [c3F]).manifestOut.entries ∧
    (freshRecord c3P c3F "a.txt" ".txt" "h3").needs_review = false :=
  ⟨by decide,
   C3_manifest_no_review c3P [] [c3F]
     ("h3", freshRecord c3P c3F "a.txt" ".txt" "h3") (by decide)⟩

end NoticeForge

namespace NoticeForge

/-! ## Claim C5: export-batcher limits -/

/-- Every entry of a batch carries its true file size, within the per-file cap. -/
def entriesOk (sizeOf : String → Option Nat) (b : List (String × Nat)) : Prop :=
  ∀ e ∈ b, sizeOf e.1 = some e.2 ∧ e.2 ≤ MAX_FILE_BYTES

/-- Loop invariant of the batching fold. -/
def batchStInv (sizeOf : String → Option Nat) (slots : Nat) (st : BatchState) : Prop :=
  st.curBytes = (st.cur.map Prod.snd).sum ∧
  st.curBytes ≤ MAX_BATCH_BYTES ∧
  st.cur.length ≤ slots ∧
  (∀ b ∈ st.batches,
    (b.map Prod.snd).sum ≤ MAX_BATCH_BYTES ∧ b.length ≤ slots ∧ entriesOk sizeOf b) ∧
  entriesOk sizeOf st.cur

theorem batchStInv_flush {sizeOf slots st} (h : batchStInv sizeOf slots st) :
    batchStInv sizeOf slots (batchFlush st) ∧
    ∀ b ∈ (batchFlush st).batches,
      (b.map Prod.snd).sum ≤ MAX_BATCH_BYTES ∧ b.length ≤ slots ∧ entriesOk sizeOf b := by
  obtain ⟨h1, h2, h3, h4, h5⟩ := h
  have hb : ∀ b ∈ (batchFlush st).batches,
      (b.map Prod.snd).sum ≤ MAX_BATCH_BYTES ∧ b.length ≤ slots ∧ entriesOk sizeOf b := by
    intro b hbmem
    simp only [batchFlush] at hbmem
    split at hbmem
    · rcases List.mem_append.mp hbmem with hm | hm
      · exact h4 b hm
      · rcases List.mem_singleton.mp hm with rfl
        exact ⟨h1 ▸ h2, h3, h5⟩
    · exact h4 b hbmem
  refine ⟨⟨rfl, by simp [batchFlush], by simp [batchFlush], hb, ?_⟩, hb⟩
  intro e he
  simp [batchFlush] at he

theorem batchStInv_step {sizeOf slots st} (r : Record) (hs : 1 ≤ slots)
    (h : batchStInv sizeOf slots st) :
    batchStInv sizeOf slots (batchStep sizeOf slots st r) := by
  unfold batchStep
  split
  · exact h
  · split
    · exact h
    next sz hsz =>
      split
      · obtain ⟨h1, h2, h3, h4, h5⟩ := h
        exact ⟨h1, h2, h3, h4, h5⟩
      next hover =>
        have hszle : sz ≤ MAX_FILE_BYTES := by omega
        have hfb : MAX_FILE_BYTES ≤ MAX_BATCH_BYTES := by decide
        dsimp only
        split
        · have hflush := (batchStInv_flush h).1
          obtain ⟨f1, f2, f3, f4, f5⟩ := hflush
          have hcur : (batchFlush st).cur = [] := by simp [batchFlush]
          have hbytes : (batchFlush st).curBytes = 0 := by simp [batchFlush]
          refine ⟨?_, ?_, ?_, f4, ?_⟩
          · simp [hcur, hbytes]
          · simp only [hcur, hbytes]
            simpa using le_trans hszle hfb
          · simp [hcur, hs]
          · intro e he
            rw [hcur] at he
            rcases List.mem_singleton.mp (by simpa using he) with rfl
            exact ⟨hsz, hszle⟩
        next hnn =>
          obtain ⟨h1, h2, h3, h4, h5⟩ := h
          simp only [Bool.or_eq_true, Bool.not_eq_true', decide_eq_true_eq,
            not_or] at hnn
          obtain ⟨⟨_, hlen⟩, hbyt⟩ := hnn
          refine ⟨?_, by dsimp only; omega, ?_, h4, ?_⟩
          · simp [h1, List.map_append]
          · simp only [List.length_append, List.length_singleton]
            omega
          · intro e he
            rcases List.mem_append.mp he with hm | hm
            · exact h5 e hm
            · rcases List.mem_singleton.mp hm with rfl
              exact ⟨hsz, hszle⟩

theorem batchStInv_foldl {sizeOf slots} (hs : 1 ≤ slots) :
    ∀ (records : List Record) (st : BatchState), batchStInv sizeOf slots st →
      batchStInv sizeOf slots (records.foldl (batchStep sizeOf slots) st)
  | [], _, h => h
  | r :: rest, st, h =>
    batchStInv_foldl hs rest _ (batchStInv_step r hs h)

theorem batch_skipped_mono {sizeOf slots st} (r : Record) :
    ∀ e ∈ st.skipped, e ∈ (batchStep sizeOf slots st r).skipped := by
  intro e he
  unfold batchStep
  split
  · exact he
  · split
    · exact he
    · split
      · simp [he]
      · dsimp only
        split
        · simpa [batchFlush] using he
        · simpa using he

theorem batch_skipped_foldl_mono {sizeOf slots} :
    ∀ (records : List Record) (st : BatchState),
      ∀ e ∈ st.skipped, e ∈ (records.foldl (batchStep sizeOf slots) st).skipped
  | [], _, _, he => he
  | r :: rest, st, e, he =>
    batch_skipped_foldl_mono rest _ e (batch_skipped_mono r e he)

theorem batch_oversize_skipped {sizeOf slots st} (r : Record) (sz : Nat)
    (hext : asciiLower r.ext = ".pdf") (hsz : sizeOf r.relpath = some sz)
    (hover : MAX_FILE_BYTES < sz) :
    (r.relpath, "ファイルサイズ超過 (" ++ toString (sz / (1024 * 1024)) ++ "MB > 50MB)")
      ∈ (batchStep sizeOf slots st r).skipped := by
  unfold batchStep
  rw [if_neg (by simp [hext]), hsz]
  dsimp only
  rw [if_pos hover]
  simp

end NoticeForge

namespace NoticeForge

theorem batch_oversize_foldl {sizeOf slots} :
    ∀ (records : List Record) (st : BatchState) (r : Record) (sz : Nat),
      r ∈ records → asciiLower r.ext = ".pdf" → sizeOf r.relpath = some sz →
      MAX_FILE_BYTES < sz →
      (r.relpath,
        "ファイルサイズ超過 (" ++ toString (sz / (1024 * 1024)) ++ "MB > 50MB)")
        ∈ (records.foldl (batchStep sizeOf slots) st).skipped := by
  intro records
  induction records with
  | nil => intro st r sz hm; exact absurd hm (List.not_mem_nil r)
  | cons x rest ih =>
    intro st r sz hm hext hsz hover
    rcases List.mem_cons.mp hm with rfl | hm2
    · exact batch_skipped_foldl_mono rest _ _
        (batch_oversize_skipped r sz hext hsz hover)
    · exact ih _ r sz hm2 hext hsz hover

/-- C5 (amended) — for every run of the original-file batcher with a positive
slot limit (`slots_per_batch ≥ 1`, i.e. at most 48 bundle files in the
`max(50 − 1 − bundles, 0)` computation of `process_folder`): every produced
batch keeps its cumulative byte size within the 250 MB limit and its file
count within `slots_per_batch`; and every allow-listed (`.pdf`, existing) file
above the 50 MB per-file limit lands in the skipped list with a reason and in
no batch.  With `slots_per_batch = 0` the count bound fails (see the
counterexample); the byte and skip properties hold regardless. -/
theorem C5_batcher_limits (sizeOf : String → Option Nat) (records : List Record)
    (slots : Nat) (hs : 1 ≤ slots) :
    (∀ b ∈ (copySourceFilesBatched sizeOf records slots).1,
       (b.map Prod.snd).sum ≤ MAX_BATCH_BYTES ∧ b.length ≤ slots) ∧
    (∀ r ∈ records, ∀ sz, asciiLower r.ext = ".pdf" →
       sizeOf r.relpath = some sz → MAX_FILE_BYTES < sz →
       (r.relpath,
         "ファイルサイズ超過 (" ++ toString (sz / (1024 * 1024)) ++ "MB > 50MB)")
         ∈ (copySourceFilesBatched sizeOf records slots).2 ∧
       ∀ b ∈ (copySourceFilesBatched sizeOf records slots).1, ∀ e ∈ b,
         e.1 ≠ r.relpath) := by
  have hinv0 : batchStInv sizeOf slots ⟨[], [], [], 0, false⟩ := by
    refine ⟨rfl, by simp [MAX_BATCH_BYTES], by simp, ?_, ?_⟩
    · intro b hb; exact absurd hb (List.not_mem_nil b)
    · intro e he; exact absurd he (List.not_mem_nil e)
  have hinv := batchStInv_foldl hs records _ hinv0
  have hfin := batchStInv_flush hinv
  constructor
  · intro b hb
    exact ⟨(hfin.2 b hb).1, (hfin.2 b hb).2.1⟩
  · intro r hm sz hext hsz hover
    constructor
    · have heq : (copySourceFilesBatched sizeOf records slots).2
          = (records.foldl (batchStep sizeOf slots) ⟨[], [], [], 0, false⟩).skipped := by
        simp [copySourceFilesBatched, batchFlush]
      rw [heq]
      exact batch_oversize_foldl records _ r sz hm hext hsz hover
    · intro b hb e he hne
      have hok := (hfin.2 b hb).2.2 e he
      rw [hne, hsz] at hok
      have : sz = e.2 := by
        have := hok.1
        injection this
      omega

/-- A record value with all fields at their defaults, for concrete batch
inputs (only `ext` and `relpath` matter to the batcher). -/
def blankRecord : Record :=
  { relpath := "", ext := "", size := 0, mtime := 0, sha1 := "", method := ""
    pages := none, text_chars := 0, needs_review := false, reason := ""
    title_guess := "", date_guess := "", issuer_guess := "", summary := ""
    tags_facility := [], tags_work := [], tag_evidence := [], out_txt := ""
    full_text_for_bind := "", doc_type := "通知", ocr_quality := 1
    related_laws := [], amendments := [], date_sort_key := "" }

/-- C5 (counterexample) — with 50 bundle files the slot computation yields
`slots_per_batch = 0`, and a single 1-byte PDF then lands in a batch of one
file, exceeding the limit of 0: the claim as stated fails. -/
theorem C5_counterexample :
    pdfSlots 50 = 0 ∧
    ¬ (∀ b ∈ (copySourceFilesBatched (fun _ => some 1)
          [{ blankRecord with ext := ".pdf", relpath := "a.pdf" }] 0).1,
        b.length ≤ 0) := by
  constructor
  · decide
  · decide

/-- C5 (witness) — the amended limits applied to a concrete run: one 1-byte
PDF with one slot. -/
theorem C5_batcher_limits_witness :
    (1 : Nat) ≤ 1 ∧
    (∀ b ∈ (copySourceFilesBatched (fun _ => some 1)
        [{ blankRecord with ext := ".pdf", relpath := "a.pdf" }] 1).1,
      (b.map Prod.snd).sum ≤ MAX_BATCH_BYTES ∧ b.length ≤ 1) :=
  ⟨le_refl 1,
   (C5_batcher_limits (fun _ => some 1)
     [{ blankRecord with ext := ".pdf", relpath := "a.pdf" }] 1 (le_refl 1)).1⟩

end NoticeForge

namespace NoticeForge

/-! ## Claim C7: the title guesser versus the garble predicate -/

theorem orElse_eq_some_cases {α} {a : Option α} {b : Unit → Option α} {r : α}
    (h : a.orElse b = some r) : a = some r ∨ b () = some r := by
  cases a
  · right; simpa [Option.orElse] using h
  · left; simpa [Option.orElse] using h

theorem validateTitle_not_garbled {c r : String} (h : validateTitle c = some r) :
    isOcrGarbledTitle r = false := by
  unfold validateTitle at h
  split_ifs at h with h1 h2 h3 h4 <;> simp_all

theorem connectAt_not_garbled {lines : List String} {i : Nat} {s r : String}
    (h : connectAt lines i s = some r) : isOcrGarbledTitle r = false := by
  unfold connectAt at h
  split_ifs at h with h1 h2
  · rcases orElse_eq_some_cases h with h3 | h3
    · exact validateTitle_not_garbled h3
    · exact validateTitle_not_garbled h3
  · rcases orElse_eq_some_cases h with h3 | h3
    · exact absurd h3 (by simp)
    · exact validateTitle_not_garbled h3

theorem titlePass1At_not_garbled {lines : List String} {i : Nat} {r : String}
    (h : titlePass1At lines i = some r) : isOcrGarbledTitle r = false := by
  unfold titlePass1At at h
  dsimp only at h
  split at h
  · split at h
    · exact absurd h (by simp)
    · rcases orElse_eq_some_cases h with h2 | h2
      · exact connectAt_not_garbled h2
      · have hr : stripAt lines i = r := by simpa using h2
        subst hr
        simp_all
  · rcases orElse_eq_some_cases h with h2 | h2
    · split at h2
      · exact connectAt_not_garbled h2
      · exact absurd h2 (by simp)
    · split at h2
      · split at h2
        · exact validateTitle_not_garbled h2
        · exact absurd h2 (by simp)
      · exact absurd h2 (by simp)

theorem titlePass2At_not_garbled {lines : List String} {li : Nat} {r : String}
    (h : titlePass2At lines li = some r) : isOcrGarbledTitle r = false := by
  unfold titlePass2At at h
  dsimp only at h
  split at h
  · exact absurd h (by simp)
  · split at h
    · exact absurd h (by simp)
    · split at h
      · exact absurd h (by simp)
      · split at h
        · exact absurd h (by simp)
        · split at h
          · exact absurd h (by simp)
          · split at h
            · exact absurd h (by simp)
            · split at h
              · exact absurd h (by simp)
              · split at h
                · rcases hv : validateTitle
                      (stripAt lines li ++ stripAt lines (li + 1)) with _ | result
                  · rw [hv] at h
                    have hr : stripAt lines li = r := by simpa using h
                    subst hr
                    simp_all
                  · rw [hv] at h
                    dsimp only at h
                    split at h
                    · have hr : result = r := by simpa using h
                      subst hr
                      exact validateTitle_not_garbled hv
                    · have hr : stripAt lines li = r := by simpa using h
                      subst hr
                      simp_all
                · have hr : stripAt lines li = r := by simpa using h
                  subst hr
                  simp_all

theorem firstSome_eq_some {f : Nat → Option String} {r : String} :
    ∀ {l : List Nat}, firstSome f l = some r → ∃ i, f i = some r := by
  intro l
  induction l with
  | nil => intro h; exact absurd h (by simp [firstSome])
  | cons i rest ih =>
    intro h
    rw [firstSome] at h
    rcases hf : f i with _ | v
    · rw [hf] at h
      exact ih h
    · rw [hf] at h
      exact ⟨i, hf.trans h⟩

/-- C7 (counterexample) — the claim as stated fails: on empty input the
guesser returns the fallback unchecked, and the empty fallback satisfies the
OCR-garble rejection predicate. -/
theorem C7_counterexample :
    guessTitle "" "" = "" ∧ isOcrGarbledTitle "" = true :=
  ⟨by decide, by decide⟩

/-- C7 (amended) — any value the title guesser returns other than the caller's
fallback string never satisfies the OCR-garble rejection predicate (the
fallback itself is returned unchecked). -/
theorem C7_title_guesser_not_garbled (text fallback : String) :
    guessTitle text fallback = fallback ∨
    isOcrGarbledTitle (guessTitle text fallback) = false := by
  unfold guessTitle
  rcases h1 : firstSome (titlePass1At (splitlines text))
      (List.range (min 100 (splitlines text).length)) with _ | r1
  · rcases h2 : firstSome (titlePass2At (splitlines text))
        (List.range (min 80 (splitlines text).length)) with _ | r2
    · left
      simp [h1, h2, Option.orElse]
    · right
      obtain ⟨i, hi⟩ := firstSome_eq_some h2
      have hg := titlePass2At_not_garbled hi
      simpa [h1, h2, Option.orElse] using hg
  · right
    obtain ⟨i, hi⟩ := firstSome_eq_some h1
    have hg := titlePass1At_not_garbled hi
    simpa [h1, Option.orElse] using hg

end NoticeForge

namespace NoticeForge

/-! ## Run-loop invariants (claims C2, C4, C10) -/

theorem str_empty_iff (s : String) : s = "" ↔ s.data = [] := by
  constructor
  · intro h
    rw [h]
  · intro h
    cases s with
    | mk data =>
      simp only at h
      rw [h]

theorem countP_append_singleton {α} (p : α → Bool) (l : List α) (x : α) :
    (l ++ [x]).countP p = l.countP p + (if p x then 1 else 0) := by
  rw [List.countP_append]
  by_cases hp : p x
  · simp [List.countP_cons, hp]
  · simp [List.countP_cons, hp]

theorem foldl_inv_of_step {α β : Type _} {step : β → α → β} {Inv : List α → β → Prop}
    (hstep : ∀ ps st a, Inv ps st → Inv (ps ++ [a]) (step st a)) :
    ∀ (l ps : List α) (st : β), Inv ps st → Inv (ps ++ l) (l.foldl step st)
  | [], ps, st, h => by simpa using h
  | a :: rest, ps, st, h => by
    have h3 := foldl_inv_of_step hstep rest (ps ++ [a]) (step st a) (hstep ps st a h)
    simpa [List.append_assoc] using h3

/-- The three-type vocabulary of `doc_type`. -/
def docTypeOk (r : Record) : Prop :=
  r.doc_type = "法令" ∨ r.doc_type = "通知" ∨ r.doc_type = "マニュアル"

theorem detectDocType_cases (rel t : String) :
    detectDocType rel t = "法令" ∨ detectDocType rel t = "通知" ∨
    detectDocType rel t = "マニュアル" := by
  unfold detectDocType
  dsimp only
  split_ifs <;> simp

theorem freshRecord_doc_type (P : RunParams) (f : SrcFile) (rel ext h : String) :
    docTypeOk (freshRecord P f rel ext h) := by
  unfold freshRecord docTypeOk
  dsimp only
  exact detectDocType_cases rel _

theorem freshRecord_sha1 (P : RunParams) (f : SrcFile) (rel ext h : String) :
    (freshRecord P f rel ext h).sha1 = h := rfl

theorem freshRecord_relpath (P : RunParams) (f : SrcFile) (rel ext h : String) :
    (freshRecord P f rel ext h).relpath = rel := rfl

theorem mem_sortRecords {r : Record} {rs : List Record}
    (h : r ∈ sortRecords rs) : r ∈ rs := by
  unfold sortRecords at h
  rcases List.mem_append.mp h with h2 | h2
  · rcases List.mem_append.mp h2 with h3 | h3 <;>
      exact (List.mem_filter.mp ((List.perm_insertionSort _ _).mem_iff.mp h3)).1
  · exact (List.mem_filter.mp ((List.perm_insertionSort _ _).mem_iff.mp h2)).1

theorem countP_three_filters (q : Record → Bool) :
    ∀ (rs : List Record), (∀ r ∈ rs, docTypeOk r) →
      (rs.filter fun r => r.doc_type = "法令").countP q +
      (rs.filter fun r => r.doc_type = "通知").countP q +
      (rs.filter fun r => r.doc_type = "マニュアル").countP q = rs.countP q := by
  intro rs
  induction rs with
  | nil => intro _; simp
  | cons x rest ih =>
    intro hwf
    have hx := hwf x (List.mem_cons_self x rest)
    have ih2 := ih fun r hr => hwf r (List.mem_cons_of_mem x hr)
    rcases hx with hx | hx | hx <;>
      simp [List.filter_cons, List.countP_cons, hx, ← ih2] <;>
      by_cases hq : q x = true <;>
      simp [hq] <;>
      omega

theorem countP_sortRecords (q : Record → Bool) (rs : List Record)
    (hwf : ∀ r ∈ rs, docTypeOk r) :
    (sortRecords rs).countP q = rs.countP q := by
  unfold sortRecords
  rw [List.countP_append, List.countP_append,
      (List.perm_insertionSort _ _).countP_eq,
      (List.perm_insertionSort _ _).countP_eq,
      (List.perm_insertionSort _ _).countP_eq]
  exact countP_three_filters q rs hwf

end NoticeForge

namespace NoticeForge

/-- The loop invariant of `process_folder`'s per-file loop, over the processed
prefix `ps`: seen-set soundness, exactly one record per distinct non-empty
hash, first-occurrence relpaths, the duplicate count equation, one record per
empty-hash file, and empty-hash records being fresh. -/
def runInv (P : RunParams) (ps : List SrcFile) (st : RunState) : Prop :=
  (∀ h : String, h ≠ "" →
    (st.seen.contains h = true ↔ h ∈ ps.map fun f => P.hashFn f.content)) ∧
  (∀ h : String, h ≠ "" →
    st.records.countP (fun r => r.sha1 = h) =
      if h ∈ ps.map (fun f => P.hashFn f.content) then 1 else 0) ∧
  (∀ r ∈ st.records, r.sha1 ≠ "" →
    ∃ f, ps.find? (fun f2 => P.hashFn f2.content = r.sha1) = some f ∧
         r.relpath = f.relpath) ∧
  (st.dup + st.records.countP (fun r => r.sha1 ≠ "") =
    ps.countP fun f => P.hashFn f.content ≠ "") ∧
  (st.records.countP (fun r => r.sha1 = "") =
    ps.countP fun f => P.hashFn f.content = "") ∧
  (∀ r ∈ st.records, r.sha1 = "" →
    ∃ f ∈ ps, P.hashFn f.content = "" ∧
      r = freshRecord P f f.relpath (asciiLower f.extRaw) "")

theorem runInv_nil (P : RunParams) : runInv P [] ⟨[], [], 0, 0⟩ := by
  refine ⟨?_, ?_, ?_, ?_, ?_, ?_⟩ <;> simp [runInv]

theorem runInv_step (P : RunParams) (loaded : List (String × Record))
    (ps : List SrcFile) (st : RunState) (f : SrcFile) (hInv : runInv P ps st) :
    runInv P (ps ++ [f]) (stepFile P loaded st f) := by
  obtain ⟨i1, i2, i3, i4, i5, i6⟩ := hInv
  have hmap : (ps ++ [f]).map (fun f2 => P.hashFn f2.content) =
      ps.map (fun f2 => P.hashFn f2.content) ++ [P.hashFn f.content] := by simp
  unfold stepFile
  dsimp only
  split
  case isTrue hdup =>
    rw [Bool.and_eq_true, decide_eq_true_eq] at hdup
    obtain ⟨hne, hseen⟩ := hdup
    have hne2 : P.hashFn f.content ≠ "" := fun hc => hne ((str_empty_iff _).mp hc)
    have hmem : P.hashFn f.content ∈ ps.map (fun f2 => P.hashFn f2.content) :=
      (i1 _ hne2).mp hseen
    simp only [runInv]
    refine ⟨?_, ?_, ?_, ?_, ?_, ?_⟩
    · intro h2 hne3
      rw [hmap, List.mem_append, List.mem_singleton]
      constructor
      · intro hc
        exact Or.inl ((i1 h2 hne3).mp hc)
      · rintro (hc | rfl)
        · exact (i1 h2 hne3).mpr hc
        · exact hseen
    · intro h2 hne3
      rw [hmap]
      simp only [List.mem_append, List.mem_singleton]
      by_cases hc : h2 = P.hashFn f.content
      · subst hc
        rw [i2 _ hne3, if_pos hmem, if_pos (Or.inl hmem)]
      · rw [i2 h2 hne3]
        by_cases hm2 : h2 ∈ ps.map fun f2 => P.hashFn f2.content
        · rw [if_pos hm2, if_pos (Or.inl hm2)]
        · rw [if_neg hm2, if_neg (by rintro (hc2 | rfl) <;> simp_all)]
    · intro r hr hrs
      obtain ⟨f0, hf0, hrel⟩ := i3 r hr hrs
      exact ⟨f0, by rw [List.find?_append, hf0]; rfl, hrel⟩
    · rw [countP_append_singleton, if_pos (by simpa using hne2)]
      omega
    · rw [countP_append_singleton, if_neg (by simpa using hne2)]
      simpa using i5
    · intro r hr hrs
      obtain ⟨f0, hf0, hh, heq⟩ := i6 r hr hrs
      exact ⟨f0, List.mem_append_left _ hf0, hh, heq⟩
  case isFalse hdup =>
    have hnodup : P.hashFn f.content ≠ "" →
        P.hashFn f.content ∉ ps.map fun f2 => P.hashFn f2.content := by
      intro hne2 hc
      have hseen := (i1 _ hne2).mpr hc
      have hne : (P.hashFn f.content).data ≠ [] := fun h2 =>
        hne2 ((str_empty_iff _).mpr h2)
      apply hdup
      rw [Bool.and_eq_true, decide_eq_true_eq]
      exact ⟨hne, hseen⟩
    split
    case h_1 cached hlk =>
      -- cache hit: h non-empty (else the scrutinee is `none`)
      have hne : (P.hashFn f.content).data ≠ [] := by
        intro hc
        rw [if_neg (by simpa using hc)] at hlk
        exact Option.noConfusion hlk
      have hne2 : P.hashFn f.content ≠ "" := fun hc => hne ((str_empty_iff _).mp hc)
      simp only [runInv]
      refine ⟨?_, ?_, ?_, ?_, ?_, ?_⟩
      · intro h2 hne3
        rw [hmap, List.mem_append, List.mem_singleton]
        simp only [List.contains_cons, Bool.or_eq_true, beq_iff_eq]
        constructor
        · rintro (rfl | hc)
          · exact Or.inr rfl
          · exact Or.inl ((i1 h2 hne3).mp hc)
        · rintro (hc | rfl)
          · exact Or.inr ((i1 h2 hne3).mpr hc)
          · exact Or.inl rfl
      · intro h2 hne3
        rw [hmap, countP_append_singleton]
        simp only [List.mem_append, List.mem_singleton]
        by_cases hc : h2 = P.hashFn f.content
        · subst hc
          rw [i2 _ hne3, if_neg (hnodup hne3), if_pos (Or.inr rfl)]
          simp
        · rw [i2 h2 hne3]
          rw [if_neg (show ¬ (decide (({ cached with relpath := f.relpath, sha1 := P.hashFn f.content } : Record).sha1 = h2) = true) from by
            simp only [decide_eq_true_eq]
            exact fun hc2 => hc hc2.symm)]
          by_cases hm2 : h2 ∈ ps.map fun f2 => P.hashFn f2.content
          · rw [if_pos hm2, if_pos (Or.inl hm2)]
          · rw [if_neg hm2, if_neg (by rintro (hc2 | rfl) <;> simp_all)]
      · intro r hr hrs
        rcases List.mem_append.mp hr with hr2 | hr2
        · obtain ⟨f0, hf0, hrel⟩ := i3 r hr2 hrs
          exact ⟨f0, by rw [List.find?_append, hf0]; rfl, hrel⟩
        · rcases List.mem_singleton.mp hr2 with rfl
          refine ⟨f, ?_, rfl⟩
          rw [List.find?_append,
              List.find?_eq_none.mpr (fun x hx hpx => ?_), Option.none_or]
          · simp
          · have : P.hashFn x.content = P.hashFn f.content := by simpa using hpx
            exact hnodup hne2 (this ▸ List.mem_map_of_mem _ hx)
      · rw [countP_append_singleton, if_pos (by simpa using hne2),
            countP_append_singleton, if_pos (by simpa using hne2)]
        omega
      · rw [countP_append_singleton, if_neg (by simpa using hne2),
            countP_append_singleton, if_neg (by simpa using hne2)]
        exact i5
      · intro r hr hrs
        rcases List.mem_append.mp hr with hr2 | hr2
        · obtain ⟨f0, hf0, hh, heq⟩ := i6 r hr2 hrs
          exact ⟨f0, List.mem_append_left _ hf0, hh, heq⟩
        · rcases List.mem_singleton.mp hr2 with rfl
          exact absurd hrs (by simpa using hne2)
    case h_2 hlk =>
      -- fresh processing
      by_cases hne : P.hashFn f.content = ""
      · -- hash failure: bypasses dedup and cache
        simp only [runInv]
        refine ⟨?_, ?_, ?_, ?_, ?_, ?_⟩
        · intro h2 hne3
          rw [hmap, List.mem_append, List.mem_singleton]
          simp only [List.contains_cons, Bool.or_eq_true, beq_iff_eq]
          constructor
          · rintro (rfl | hc)
            · exact absurd hne hne3
            · exact Or.inl ((i1 h2 hne3).mp hc)
          · rintro (hc | rfl)
            · exact Or.inr ((i1 h2 hne3).mpr hc)
            · exact absurd hne hne3
        · intro h2 hne3
          rw [hmap, countP_append_singleton]
          simp only [List.mem_append, List.mem_singleton, freshRecord_sha1,
            decide_eq_true_eq]
          rw [if_neg (fun hc : P.hashFn f.content = h2 =>
            hne3 (hc.symm.trans hne))]
          rw [i2 h2 hne3]
          by_cases hm2 : h2 ∈ ps.map fun f2 => P.hashFn f2.content
          · rw [if_pos hm2, if_pos (Or.inl hm2)]
          · rw [if_neg hm2, if_neg (by rintro (hc2 | rfl) <;> simp_all)]
        · intro r hr hrs
          rcases List.mem_append.mp hr with hr2 | hr2
          · obtain ⟨f0, hf0, hrel⟩ := i3 r hr2 hrs
            exact ⟨f0, by rw [List.find?_append, hf0]; rfl, hrel⟩
          · rcases List.mem_singleton.mp hr2 with rfl
            exact absurd (freshRecord_sha1 P f _ _ _ ▸ hne) hrs
        · rw [countP_append_singleton, if_neg (by simpa using hne),
              countP_append_singleton,
              if_neg (by simp [freshRecord_sha1, hne])]
          exact i4
        · rw [countP_append_singleton, if_pos (by simpa using hne),
              countP_append_singleton, if_pos (by simp [freshRecord_sha1, hne])]
          omega
        · intro r hr hrs
          rcases List.mem_append.mp hr with hr2 | hr2
          · obtain ⟨f0, hf0, hh, heq⟩ := i6 r hr2 hrs
            exact ⟨f0, List.mem_append_left _ hf0, hh, heq⟩
          · rcases List.mem_singleton.mp hr2 with rfl
            exact ⟨f, List.mem_append_right _ (List.mem_singleton_self f), hne,
              by rw [hne]⟩
      · -- fresh with a non-empty, unseen hash
        have hnomem := hnodup hne
        simp only [runInv]
        refine ⟨?_, ?_, ?_, ?_, ?_, ?_⟩
        · intro h2 hne3
          rw [hmap, List.mem_append, List.mem_singleton]
          simp only [List.contains_cons, Bool.or_eq_true, beq_iff_eq]
          constructor
          · rintro (rfl | hc)
            · exact Or.inr rfl
            · exact Or.inl ((i1 h2 hne3).mp hc)
          · rintro (hc | rfl)
            · exact Or.inr ((i1 h2 hne3).mpr hc)
            · exact Or.inl rfl
        · intro h2 hne3
          rw [hmap, countP_append_singleton]
          simp only [List.mem_append, List.mem_singleton, freshRecord_sha1,
            decide_eq_true_eq]
          by_cases hc : h2 = P.hashFn f.content
          · subst hc
            rw [i2 _ hne3, if_neg hnomem, if_pos (Or.inr rfl), if_pos rfl]
          · rw [i2 h2 hne3,
              if_neg (show ¬ (P.hashFn f.content = h2) from fun hc2 => hc hc2.symm)]
            by_cases hm2 : h2 ∈ ps.map fun f2 => P.hashFn f2.content
            · rw [if_pos hm2, if_pos (Or.inl hm2)]
            · rw [if_neg hm2, if_neg (by rintro (hc2 | rfl) <;> simp_all)]
        · intro r hr hrs
          rcases List.mem_append.mp hr with hr2 | hr2
          · obtain ⟨f0, hf0, hrel⟩ := i3 r hr2 hrs
            exact ⟨f0, by rw [List.find?_append, hf0]; rfl, hrel⟩
          · rcases List.mem_singleton.mp hr2 with rfl
            refine ⟨f, ?_, (freshRecord_relpath P f _ _ _).symm ▸ rfl⟩
            rw [List.find?_append,
                List.find?_eq_none.mpr (fun x hx hpx => ?_), Option.none_or]
            · simp [freshRecord_sha1]
            · have hx2 : P.hashFn x.content =
                  (freshRecord P f f.relpath (asciiLower f.extRaw)
                    (P.hashFn f.content)).sha1 := by simpa using hpx
              rw [freshRecord_sha1] at hx2
              exact hnomem (hx2 ▸ List.mem_map_of_mem _ hx)
        · rw [countP_append_singleton, if_pos (by simpa using hne),
              countP_append_singleton,
              if_pos (by simp [freshRecord_sha1]; exact hne)]
          omega
        · rw [countP_append_singleton, if_neg (by simpa using hne),
              countP_append_singleton,
              if_neg (by simp [freshRecord_sha1]; exact hne)]
          exact i5
        · intro r hr hrs
          rcases List.mem_append.mp hr with hr2 | hr2
          · obtain ⟨f0, hf0, hh, heq⟩ := i6 r hr2 hrs
            exact ⟨f0, List.mem_append_left _ hf0, hh, heq⟩
          · rcases List.mem_singleton.mp hr2 with rfl
            exact absurd ((freshRecord_sha1 P f _ _ _).symm.trans hrs) hne

end NoticeForge

namespace NoticeForge

theorem lookupManifest_mem {loaded : List (String × Record)} {h : String}
    {r : Record} (hl : lookupManifest loaded h = some r) :
    ∃ e ∈ loaded, e.2 = r := by
  unfold lookupManifest at hl
  rcases hfind : loaded.find? (fun e => e.1 = h) with _ | e
  · rw [hfind] at hl
    exact Option.noConfusion hl
  · rw [hfind] at hl
    refine ⟨e, List.mem_of_find?_eq_some hfind, ?_⟩
    simpa using hl

/-- Rehydrated records copy `doc_type` from the loaded manifest, fresh records
get it from `detectDocType`; so the three-type vocabulary is preserved by each
loop iteration whenever the loaded manifest respects it. -/
theorem stepFile_docTypeOk (P : RunParams) (loaded : List (String × Record))
    (hwf : ∀ e ∈ loaded, docTypeOk e.2) (st : RunState) (f : SrcFile)
    (hrec : ∀ r ∈ st.records, docTypeOk r) :
    ∀ r ∈ (stepFile P loaded st f).records, docTypeOk r := by
  unfold stepFile
  dsimp only
  split
  · exact hrec
  · split
    case h_1 cached hlk =>
      intro r hr
      dsimp only at hr
      rcases List.mem_append.mp hr with hr2 | hr2
      · exact hrec r hr2
      · rcases List.mem_singleton.mp hr2 with rfl
        have hlk2 : lookupManifest loaded (P.hashFn f.content) = some cached := by
          split at hlk
          · exact hlk
          · exact Option.noConfusion hlk
        obtain ⟨e, he, rfl⟩ := lookupManifest_mem hlk2
        exact hwf e he
    case h_2 hlk =>
      intro r hr
      dsimp only at hr
      rcases List.mem_append.mp hr with hr2 | hr2
      · exact hrec r hr2
      · rcases List.mem_singleton.mp hr2 with rfl
        exact freshRecord_doc_type P f _ _ _

/-- The per-file loop establishes `runInv` over the full walk order together
with the doc-type vocabulary invariant. -/
theorem processFolder_inv (P : RunParams) (loaded : List (String × Record))
    (files : List SrcFile) (hwf : ∀ e ∈ loaded, docTypeOk e.2) :
    runInv P files (files.foldl (stepFile P loaded) ⟨[], [], 0, 0⟩) ∧
    ∀ r ∈ (files.foldl (stepFile P loaded) ⟨[], [], 0, 0⟩).records, docTypeOk r := by
  have h := @foldl_inv_of_step SrcFile RunState (stepFile P loaded)
    (fun ps st => runInv P ps st ∧ ∀ r ∈ st.records, docTypeOk r)
    (fun ps st a hInv =>
      ⟨runInv_step P loaded ps st a hInv.1,
       stepFile_docTypeOk P loaded hwf st a hInv.2⟩)
    files [] ⟨[], [], 0, 0⟩ ⟨runInv_nil P, by simp⟩
  simpa using h

end NoticeForge

namespace NoticeForge

/-! ## Claim C2: content-hash deduplication -/

/-- C2 (amended) — for every non-empty content hash, the run produces exactly
one record: its count among the result records is 1 exactly when a file with
that hash was scanned, the record's `relpath` is that of the first occurrence
in walk order, and every later occurrence of an already-seen non-empty hash is
counted as a duplicate (duplicates plus hashed records = hashed files).  Files
whose hashing failed (empty hash) are exempt: they bypass the duplicate check. -/
theorem C2_dedup (P : RunParams) (loaded : List (String × Record))
    (files : List SrcFile) (hwf : ∀ e ∈ loaded, docTypeOk e.2) :
    (∀ h : String, h ≠ "" →
      (processFolder P loaded files).records.countP (fun r => r.sha1 = h) =
        if h ∈ files.map (fun f => P.hashFn f.content) then 1 else 0) ∧
    (∀ r ∈ (processFolder P loaded files).records, r.sha1 ≠ "" →
      ∃ f, files.find? (fun f2 => P.hashFn f2.content = r.sha1) = some f ∧
        r.relpath = f.relpath) ∧
    ((processFolder P loaded files).dup +
      (processFolder P loaded files).records.countP (fun r => r.sha1 ≠ "") =
      files.countP fun f => P.hashFn f.content ≠ "") := by
  obtain ⟨hrun, hdoc⟩ := processFolder_inv P loaded files hwf
  obtain ⟨i1, i2, i3, i4, i5, i6⟩ := hrun
  refine ⟨?_, ?_, ?_⟩
  · intro h hne
    show (sortRecords _).countP _ = _
    rw [countP_sortRecords _ _ hdoc]
    exact i2 h hne
  · intro r hr hrs
    exact i3 r (mem_sortRecords hr) hrs
  · show _ + (sortRecords _).countP _ = _
    rw [countP_sortRecords _ _ hdoc]
    exact i4

/-- Parameters of the C2 counterexample run: content hashing always fails
(`compute_sha1` returns `""`). -/
def c2P : RunParams :=
  { hashFn := fun _ => ""
    extractFn := fun _ => .ok "資料のテキストです。" none "txt_read"
    tesseract := false
    xdwlib := false
    splitKws := [] }

/-- Parameters of the C2 witness run: content hashing is the identity on the
file content, so byte-identical files collide. -/
def c2Q : RunParams :=
  { hashFn := fun s => s
    extractFn := fun _ => .ok "資料のテキストです。" none "txt_read"
    tesseract := false
    xdwlib := false
    splitKws := [] }

/-- Two byte-identical files at different paths. -/
def c2F1 : SrcFile :=
  { relpath := "a.txt", extRaw := ".txt", content := "y", size := 10, mtime := 0 }

def c2F2 : SrcFile :=
  { relpath := "b.txt", extRaw := ".txt", content := "y", size := 10, mtime := 0 }

/-- C2 (counterexample) — two byte-identical files whose hashing fails both
produce a record, and the two records share the (empty) hash: the run emits
two records for one byte-identical set, not one. -/
theorem C2_counterexample :
    c2F1.content = c2F2.content ∧
    ¬ ((processFolder c2P [] [c2F1, c2F2]).records.countP
        (fun r => r.sha1 = c2P.hashFn c2F1.content) ≤ 1) := by decide

/-- C2 (witness) — the amended statement applied to a concrete run on two
byte-identical files: one record for the shared hash, and one duplicate. -/
theorem C2_dedup_witness :
    ((processFolder c2Q [] [c2F1, c2F2]).records.countP (fun r => r.sha1 = "y") =
      if "y" ∈ [c2F1, c2F2].map (fun f => c2Q.hashFn f.content) then 1 else 0) ∧
    ((processFolder c2Q [] [c2F1, c2F2]).dup +
      (processFolder c2Q [] [c2F1, c2F2]).records.countP (fun r => r.sha1 ≠ "") =
      [c2F1, c2F2].countP fun f => c2Q.hashFn f.content ≠ "") :=
  ⟨(C2_dedup c2Q [] [c2F1, c2F2] (by simp)).1 "y" (by decide),
   (C2_dedup c2Q [] [c2F1, c2F2] (by simp)).2.2⟩

end NoticeForge

namespace NoticeForge

/-! ## Claim C10: hash-failure files bypass dedup and cache, and are never
persisted -/

/-- C10 — files whose content hashing failed (empty hash): each one yields its
own record (their record count equals their file count, so byte-identical
failures are not deduplicated), every such record was freshly processed (the
cache was bypassed, not rehydrated), and no entry of the rewritten manifest
carries an empty hash key. -/
theorem C10_hash_failure (P : RunParams) (loaded : List (String × Record))
    (files : List SrcFile) (hwf : ∀ e ∈ loaded, docTypeOk e.2) :
    ((processFolder P loaded files).records.countP (fun r => r.sha1 = "") =
      files.countP fun f => P.hashFn f.content = "") ∧
    (∀ r ∈ (processFolder P loaded files).records, r.sha1 = "" →
      ∃ f ∈ files, P.hashFn f.content = "" ∧
        r = freshRecord P f f.relpath (asciiLower f.extRaw) "") ∧
    (∀ e ∈ (processFolder P loaded files).manifestOut.entries, e.1 ≠ "") := by
  obtain ⟨hrun, hdoc⟩ := processFolder_inv P loaded files hwf
  obtain ⟨i1, i2, i3, i4, i5, i6⟩ := hrun
  refine ⟨?_, ?_, ?_⟩
  · show (sortRecords _).countP _ = _
    rw [countP_sortRecords _ _ hdoc]
    exact i5
  · intro r hr hrs
    exact i6 r (mem_sortRecords hr) hrs
  · intro e he
    simp only [processFolder, writeManifest] at he
    rcases List.mem_map.mp he with ⟨r, hr, rfl⟩
    have h2 := (List.mem_filter.mp hr).2
    simp only [Bool.and_eq_true, decide_eq_true_eq] at h2
    exact fun hc => h2.1 ((str_empty_iff _).mp hc)

/-- C10 (witness) — the theorem applied to a concrete run on two
byte-identical files whose hashing fails: both yield a record, and the
rewritten manifest has no entry for them. -/
theorem C10_hash_failure_witness :
    ((processFolder c2P [] [c2F1, c2F2]).records.countP (fun r => r.sha1 = "") =
      [c2F1, c2F2].countP fun f => c2P.hashFn f.content = "") ∧
    (∀ e ∈ (processFolder c2P [] [c2F1, c2F2]).manifestOut.entries, e.1 ≠ "") :=
  ⟨(C10_hash_failure c2P [] [c2F1, c2F2] (by simp)).1,
   (C10_hash_failure c2P [] [c2F1, c2F2] (by simp)).2.2⟩

end NoticeForge

namespace NoticeForge

/-! ## Claim C4: cache-version mismatch discards the loaded cache -/

/-- With an empty loaded manifest, one loop iteration never takes the cache
branch: the cache-hit counter stays `0` and every appended record is fresh. -/
theorem stepFile_empty_manifest (P : RunParams) (ps : List SrcFile)
    (st : RunState) (f : SrcFile)
    (hInv : st.cacheUsed = 0 ∧ ∀ r ∈ st.records, ∃ g ∈ ps,
      r = freshRecord P g g.relpath (asciiLower g.extRaw) (P.hashFn g.content)) :
    (stepFile P [] st f).cacheUsed = 0 ∧
    ∀ r ∈ (stepFile P [] st f).records, ∃ g ∈ ps ++ [f],
      r = freshRecord P g g.relpath (asciiLower g.extRaw) (P.hashFn g.content) := by
  obtain ⟨hc, hr⟩ := hInv
  unfold stepFile
  dsimp only
  split
  · exact ⟨hc, fun r hr2 => by
      obtain ⟨g, hg, heq⟩ := hr r hr2
      exact ⟨g, List.mem_append_left _ hg, heq⟩⟩
  · split
    case h_1 cached hlk =>
      have : lookupManifest [] (P.hashFn f.content) = none := rfl
      rw [this] at hlk
      split at hlk
      · exact Option.noConfusion hlk
      · exact Option.noConfusion hlk
    case h_2 hlk =>
      refine ⟨hc, ?_⟩
      intro r hr2
      dsimp only at hr2
      rcases List.mem_append.mp hr2 with hr3 | hr3
      · obtain ⟨g, hg, heq⟩ := hr r hr3
        exact ⟨g, List.mem_append_left _ hg, heq⟩
      · rcases List.mem_singleton.mp hr3 with rfl
        exact ⟨f, List.mem_append_right _ (List.mem_singleton_self f), rfl⟩

/-- C4 — a loaded cache whose version marker differs from `_CACHE_VERSION` is
treated as empty: loading yields no entries, the run is identical to a run
with no cache, no cache hit is counted, and every produced record is freshly
processed from its file. -/
theorem C4_version_mismatch (m : Manifest) (P : RunParams)
    (files : List SrcFile) (hv : m.version ≠ some _CACHE_VERSION) :
    loadManifest m = [] ∧
    processFolder P (loadManifest m) files = processFolder P [] files ∧
    (processFolder P (loadManifest m) files).cacheUsed = 0 ∧
    ∀ r ∈ (processFolder P (loadManifest m) files).records, ∃ f ∈ files,
      r = freshRecord P f f.relpath (asciiLower f.extRaw) (P.hashFn f.content) := by
  have hload : loadManifest m = [] := by
    unfold loadManifest
    rw [if_neg hv]
  have hfold := @foldl_inv_of_step SrcFile RunState (stepFile P [])
    (fun ps st => st.cacheUsed = 0 ∧ ∀ r ∈ st.records, ∃ g ∈ ps,
      r = freshRecord P g g.relpath (asciiLower g.extRaw) (P.hashFn g.content))
    (fun ps st a hInv => stepFile_empty_manifest P ps st a hInv)
    files [] ⟨[], [], 0, 0⟩ ⟨rfl, by simp⟩
  simp only [List.nil_append] at hfold
  refine ⟨hload, by rw [hload], ?_, ?_⟩
  · show (files.foldl (stepFile P (loadManifest m)) ⟨[], [], 0, 0⟩).cacheUsed = 0
    rw [hload]
    exact hfold.1
  · intro r hr
    rw [hload] at hr
    exact hfold.2 r (mem_sortRecords hr)

/-- A stale cache from a previous version: wrong version marker, one entry. -/
def c4M : Manifest :=
  { version := some 4
    entries := [("y", freshRecord c2Q c2F1 "a.txt" ".txt" "y")] }

/-- C4 (witness) — the theorem applied to a concrete stale cache whose single
entry would match the scanned file: the cache is discarded and unused. -/
theorem C4_version_mismatch_witness :
    loadManifest c4M = [] ∧
    (processFolder c2Q (loadManifest c4M) [c2F1]).cacheUsed = 0 :=
  ⟨(C4_version_mismatch c4M c2Q [c2F1] (by decide)).1,
   (C4_version_mismatch c4M c2Q [c2F1] (by decide)).2.2.1⟩

end NoticeForge

namespace NoticeForge

/-! ## Claim C1: the heuristics pipeline is never invoked by the run loop -/

/-- Extraction for the C1 run: a text file whose first line is a valid notice
title (whitelisted opening, proper ending) followed by body text that the
summarizer turns into a non-empty summary. -/
def c1P : RunParams :=
  { hashFn := fun s => s
    extractFn := fun _ =>
      .ok "各消防本部における危険物規制事務について\n内容を通知します。" none "txt_read"
    tesseract := false
    xdwlib := false
    splitKws := [] }

/-- The concrete file of the C1 run. -/
def c1F : SrcFile :=
  { relpath := "c.txt", extRaw := ".txt", content := "z", size := 10, mtime := 0 }

/-- The text the C1 run extracts. -/
def c1Text : String :=
  "各消防本部における危険物規制事務について\n内容を通知します。"

/-- C1 — on a cache miss the produced record's derived fields are NOT
populated by the heuristics pipeline: in a concrete fresh run every record
leaves `title_guess`, `summary`, `tags_facility` and `related_laws` at their
empty defaults, although the title guesser and the summarizer return non-empty
values on the very text this run extracted (the heuristic functions exist in
the source but `process_folder` never calls them). -/
theorem C1_derived_fields_not_populated :
    (∀ r ∈ (processFolder c1P [] [c1F]).records,
      r.title_guess = "" ∧ r.summary = "" ∧ r.tags_facility = ([] : List String) ∧
      r.related_laws = ([] : List String)) ∧
    (processFolder c1P [] [c1F]).records ≠ [] ∧
    guessTitle c1Text "" ≠ "" ∧
    makeSummary c1Text 120 (guessTitle c1Text "") 1 ≠ "" := by decide

end NoticeForge
